import Mathlib

/-!
# LeafCare: the diagnosis pipeline and the history list

A shallow embedding of `src/pages/CameraScreen.js` (takePhoto, identifyDisease,
retry, saveToHistory and the controls the screen renders), of
`src/pages/History.js` (loadHistory, formatDate), of `src/pages/Dashboard.js`
(fetchArticles, filterArticles), of `src/pages/Profile.js` (deleteAccount) and
of `src/pages/Signup.js` (validateUsername), with the properties proved about
them.

JavaScript values are embedded as the inductive type `JsVal`.  Objects are
finite maps written as association lists; a property read takes the first
binding of a key, so every list denotes exactly one object and the order of
the keys is never observed.  Numbers are carried as integers: the program only
ever tests a number for being zero.  Strings are Lean strings.
-/

namespace LeafCare

/-! ## JavaScript values -/

/-- A JavaScript value as the program can meet it: the JSON values of a decoded
response body, `undefined`, and the two Firestore host objects the program
handles (a stored `Timestamp` and the `serverTimestamp()` marker). -/
inductive JsVal where
  | undefined : JsVal
  | null : JsVal
  | bool (b : Bool) : JsVal
  | num (n : Int) : JsVal
  | str (s : String) : JsVal
  | arr (items : List JsVal) : JsVal
  | obj (fields : List (String × JsVal)) : JsVal
  | timestamp (millis : Int) : JsVal
  | serverTimestamp : JsVal

/-- The exceptions the handlers can meet. -/
inductive JsError where
  | typeError : JsError
  | rejected : JsError

/-- Whether a value is `null` or `undefined`. -/
def JsVal.isNullish : JsVal → Bool
  | .undefined => true
  | .null => true
  | _ => false

/-- JavaScript truthiness (ToBoolean). -/
def JsVal.truthy : JsVal → Bool
  | .undefined => false
  | .null => false
  | .bool b => b
  | .num n => n != 0
  | .str s => s != ""
  | .arr _ => true
  | .obj _ => true
  | .timestamp _ => true
  | .serverTimestamp => true

/-- The operator `a || b`. -/
def JsVal.orElse (a b : JsVal) : JsVal :=
  if a.truthy then a else b

/-- Own property `key` of an object given by its bindings, if there is one. -/
def ownField : List (String × JsVal) → String → Option JsVal
  | [], _ => none
  | (k, v) :: rest, key => if k = key then some v else ownField rest key

/-- Reading a property of an object: `undefined` when it is absent. -/
def readField (fields : List (String × JsVal)) (key : String) : JsVal :=
  (ownField fields key).getD .undefined

/-- The member access `v.key`, for a `key` that is not a built-in of arrays,
strings or the host objects (`candidates`, `content`, `parts`, `text`):
a TypeError on `null` and `undefined`, the own property on an object,
`undefined` on everything else. -/
def getProp (v : JsVal) (key : String) : Except JsError JsVal :=
  match v with
  | .undefined => .error .typeError
  | .null => .error .typeError
  | .obj fields => .ok (readField fields key)
  | _ => .ok .undefined

/-- The optional member access `v?.key`. -/
def optProp (v : JsVal) (key : String) : JsVal :=
  match v with
  | .undefined => .undefined
  | .null => .undefined
  | .obj fields => readField fields key
  | _ => .undefined

/-- The optional element access `v?.[0]`: the first element of an array, the
first character of a string, the property named `0` of an object. -/
def optIndex0 (v : JsVal) : JsVal :=
  match v with
  | .undefined => .undefined
  | .null => .undefined
  | .arr [] => .undefined
  | .arr (x :: _) => x
  | .str s =>
    match s.data with
    | [] => .undefined
    | c :: _ => .str (String.singleton c)
  | .obj fields => readField fields "0"
  | _ => .undefined

/-! ## CameraScreen: state, requests and effects -/

/-- The picture returned by `takePictureAsync` with `base64: true`. -/
structure Photo where
  uri : String
  base64 : String
deriving DecidableEq, Repr

/-- The object passed to `setResult`. -/
structure Diagnosis where
  disease : String
  summary : JsVal
  treatment : String

/-- The four `useState` cells of `CameraScreen`. -/
structure Screen where
  photo : Option Photo
  loading : Bool
  result : Option Diagnosis
  language : String

/-- The state of a freshly mounted screen. -/
def Screen.initial : Screen :=
  { photo := none, loading := false, result := none, language := "en" }

/-- The arguments of the `fetch` call. -/
structure Request where
  url : String
  method : String
  headers : List (String × String)
  body : JsVal

/-- How the awaited `fetch(...)` and `response.json()` settle: the fetch promise
rejects, or a response with an HTTP status arrives whose body either decodes to
a value or makes `response.json()` reject. -/
inductive FetchOutcome where
  | rejects : FetchOutcome
  | response (status : Nat) (decoded : Option JsVal) : FetchOutcome

/-- What a handler does to the outside world. -/
inductive Effect where
  | fetch (req : Request) : Effect
  | addDoc (path : String) (doc : List (String × JsVal)) : Effect
  | alert (msg : String) : Effect
  | log : Effect

/-- The endpoint of the inference service; the `key` query parameter of the
source is left out. -/
def inferenceUrl : String :=
  "https://generativelanguage.googleapis.com/v1beta/models/gemini-3-flash-preview:generateContent"

/-- The request `identifyDisease` sends for a photo and a language. -/
def buildRequest (p : Photo) (language : String) : Request :=
  { url := inferenceUrl
    method := "POST"
    headers := [("Content-Type", "application/json")]
    body := .obj [("contents", .arr [.obj [("parts", .arr [
      .obj [("text", .str ("Identify the plant disease and give summary and treatment in " ++ language))],
      .obj [("inlineData", .obj [("mimeType", .str "image/jpeg"), ("data", .str p.base64)])]])]])] }

/-- Evaluation of the arguments of `fetch`: `photo.base64` throws on a null
photo. -/
def identifyRequest (photo : Option Photo) (language : String) : Except JsError Request :=
  match photo with
  | none => .error .typeError
  | some p => .ok (buildRequest p language)

/-- The expression
`data.candidates?.[0]?.content?.parts?.[0]?.text || "No result"`. -/
def extractText (data : JsVal) : Except JsError JsVal :=
  match getProp data "candidates" with
  | .error e => .error e
  | .ok c =>
    .ok (JsVal.orElse
      (optProp (optIndex0 (optProp (optProp (optIndex0 c) "content") "parts")) "text")
      (.str "No result"))

/-- The two awaits and the extraction inside the `try` block. -/
def identifyText (o : FetchOutcome) : Except JsError JsVal :=
  match o with
  | .rejects => .error .rejected
  | .response _ none => .error .rejected
  | .response _ (some data) => extractText data

/-- The part of `identifyDisease` that runs once `fetch` has settled, applied to
the state of the screen at that moment: `setResult` on success, the `catch`
block otherwise, and the `finally` block. -/
def identifySettled (o : FetchOutcome) (cur : Screen) : Screen × List Effect :=
  match identifyText o with
  | .ok text =>
    ({ cur with
        result := some { disease := "Detected Disease", summary := text,
                         treatment := "See details above" },
        loading := false }, [])
  | .error _ =>
    ({ cur with loading := false }, [.log, .alert "Failed to identify disease"])

/-- One whole run of `identifyDisease`, the service answering `net`. -/
def identifyDisease (net : Request → FetchOutcome) (s : Screen) : Screen × List Effect :=
  match identifyRequest s.photo s.language with
  | .error _ =>
    ({ s with loading := false }, [.log, .alert "Failed to identify disease"])
  | .ok req =>
    let settled := identifySettled (net req) { s with loading := true }
    (settled.1, .fetch req :: settled.2)

/-- The handler `retry`. -/
def retry (s : Screen) : Screen :=
  { s with photo := none, result := none }

/-- Evaluation of the arguments of `addDoc`: the document written to the
`history` collection.  `auth.currentUser.uid` throws without a session and
`result.disease` throws on a null result, both before `addDoc` is called. -/
def historyDoc (session : Option String) (result : Option Diagnosis) (language : String) :
    Except JsError (List (String × JsVal)) :=
  match session with
  | none => .error .typeError
  | some uid =>
    match result with
    | none => .error .typeError
    | some r =>
      .ok [("userId", .str uid), ("disease", .str r.disease), ("summary", r.summary),
           ("treatment", .str r.treatment), ("language", .str language),
           ("createdAt", .serverTimestamp)]

/-- The part of `saveToHistory` that runs once `addDoc` has settled, applied to
the state of the screen at that moment: the notice and `retry()` when the write
went through, the `catch` block when it was rejected. -/
def saveSettled (ok : Bool) (cur : Screen) : Screen × List Effect :=
  if ok then (retry cur, [.alert "Saved to history 🌱"])
  else (cur, [.alert "Save failed", .log])

/-- One whole run of `saveToHistory`; `store doc` tells whether the store
accepts the write. -/
def saveToHistory (session : Option String) (store : List (String × JsVal) → Bool)
    (s : Screen) : Screen × List Effect :=
  match historyDoc session s.result s.language with
  | .error _ => (s, [.alert "Save failed", .log])
  | .ok doc =>
    let settled := saveSettled (store doc) s
    (settled.1, .addDoc "history" doc :: settled.2)

/-- The documents a list of effects hands to `addDoc`. -/
def writes : List Effect → List (List (String × JsVal))
  | [] => []
  | .addDoc _ doc :: rest => doc :: writes rest
  | _ :: rest => writes rest

/-- The requests a list of effects hands to `fetch`. -/
def fetches : List Effect → List Request
  | [] => []
  | .fetch req :: rest => req :: fetches rest
  | _ :: rest => fetches rest

/-! ## CameraScreen: the rendered controls and the asynchronous steps -/

/-- The values offered by the language picker. -/
def languageCodes : List String := ["en", "si", "ta", "es", "fr"]

/-- The camera view with the capture button is rendered: `!photo`. -/
def Screen.showsCamera (s : Screen) : Bool := s.photo.isNone

/-- The language picker is rendered: the `photo` branch. -/
def Screen.showsPicker (s : Screen) : Bool := s.photo.isSome

/-- The identify button is rendered: `!result && !loading` in the `photo`
branch. -/
def Screen.showsIdentify (s : Screen) : Bool :=
  s.photo.isSome && (s.result.isNone && !s.loading)

/-- The retry and save buttons are rendered: `result` in the `photo` branch. -/
def Screen.showsResult (s : Screen) : Bool :=
  s.photo.isSome && s.result.isSome

/-- The screen together with its pending promises and the outside world: the
session (`auth.currentUser`), the `takePictureAsync` calls, the `fetch` calls and
the `addDoc` calls that have not settled yet, the documents the store has
accepted and every effect so far. -/
structure Machine where
  session : Option String
  screen : Screen
  capturing : Nat
  identifying : List Request
  saving : List (List (String × JsVal))
  store : List (List (String × JsVal))
  effects : List Effect

/-- A freshly mounted screen with nothing pending. -/
def Machine.initial (session : Option String) : Machine :=
  { session := session, screen := Screen.initial, capturing := 0, identifying := [],
    saving := [], store := [], effects := [] }

/-- A press on a rendered control, or the settling of a pending promise. -/
inductive Action where
  | tapCapture : Action
  | captureDone (p : Photo) : Action
  | captureFailed : Action
  | pickLanguage (code : String) : Action
  | tapIdentify : Action
  | identifyDone (i : Nat) (o : FetchOutcome) : Action
  | tapRetry : Action
  | tapSave : Action
  | saveDone (i : Nat) (ok : Bool) : Action

/-- One step of the screen: `none` when the control is not rendered or the
promise is not pending.  A press runs its handler up to the first `await`; a
settling runs the rest of the handler on the state of that moment. -/
def step (m : Machine) : Action → Option Machine
  | .tapCapture =>
    if m.screen.showsCamera then some { m with capturing := m.capturing + 1 } else none
  | .captureDone p =>
    if 0 < m.capturing then
      some { m with capturing := m.capturing - 1,
                    screen := { m.screen with photo := some p, result := none } }
    else none
  | .captureFailed =>
    if 0 < m.capturing then some { m with capturing := m.capturing - 1 } else none
  | .pickLanguage code =>
    if m.screen.showsPicker && languageCodes.contains code then
      some { m with screen := { m.screen with language := code } }
    else none
  | .tapIdentify =>
    if m.screen.showsIdentify then
      match identifyRequest m.screen.photo m.screen.language with
      | .error _ =>
        some { m with screen := { m.screen with loading := false },
                      effects := m.effects ++ [.log, .alert "Failed to identify disease"] }
      | .ok req =>
        some { m with screen := { m.screen with loading := true },
                      identifying := m.identifying ++ [req],
                      effects := m.effects ++ [.fetch req] }
    else none
  | .identifyDone i o =>
    match m.identifying.get? i with
    | none => none
    | some _ =>
      let settled := identifySettled o m.screen
      some { m with screen := settled.1, identifying := m.identifying.eraseIdx i,
                    effects := m.effects ++ settled.2 }
  | .tapRetry =>
    if m.screen.showsResult then some { m with screen := retry m.screen } else none
  | .tapSave =>
    if m.screen.showsResult then
      match historyDoc m.session m.screen.result m.screen.language with
      | .error _ => some { m with effects := m.effects ++ [.alert "Save failed", .log] }
      | .ok doc =>
        some { m with saving := m.saving ++ [doc],
                      effects := m.effects ++ [.addDoc "history" doc] }
    else none
  | .saveDone i ok =>
    match m.saving.get? i with
    | none => none
    | some doc =>
      let settled := saveSettled ok m.screen
      some { m with screen := settled.1, saving := m.saving.eraseIdx i,
                    store := if ok then m.store ++ [doc] else m.store,
                    effects := m.effects ++ settled.2 }

/-- A sequence of steps, `none` as soon as one of them is not possible. -/
def run (m : Machine) : List Action → Option Machine
  | [] => some m
  | a :: rest =>
    match step m a with
    | none => none
    | some next => run next rest

/-- The states the screen can be in: those a sequence of steps leads to from a
freshly mounted screen. -/
def Reachable (m : Machine) : Prop :=
  ∃ session actions, run (Machine.initial session) actions = some m

/-! ## History: loadHistory -/

/-- A document of the store: its identifier and its data. -/
structure StoredDoc where
  id : String
  data : List (String × JsVal)

/-- The `useState` cells of `History`. -/
structure HistoryScreen where
  history : List JsVal
  refreshing : Bool
  loading : Bool
  expandedId : Option String

/-- The query `where("userId", "==", uid)`: the documents whose `userId` field
is the string `uid`. -/
def whereUserId (uid : String) (docs : List StoredDoc) : List StoredDoc :=
  docs.filter fun d =>
    match ownField d.data "userId" with
    | some (.str s) => s == uid
    | _ => false

/-- The object literal `{ ...base, ...ext }`: the properties of `ext`, and those
of `base` that `ext` does not define. -/
def spread (base ext : List (String × JsVal)) : List (String × JsVal) :=
  base.filter (fun kv => (ownField ext kv.1).isNone) ++ ext

/-- The record built from a document: `{ id: doc.id, ...doc.data() }`. -/
def toRecord (d : StoredDoc) : JsVal :=
  .obj (spread [("id", .str d.id)] d.data)

/-- One whole run of `loadHistory`.  `collection` is the content of the
`history` collection when `getDocs` succeeds and `none` when it rejects;
`auth.currentUser.uid` throws without a session. -/
def loadHistory (session : Option String) (collection : Option (List StoredDoc))
    (h : HistoryScreen) : HistoryScreen :=
  match session with
  | none => { h with loading := false, refreshing := false }
  | some uid =>
    match collection with
    | none => { h with loading := false, refreshing := false }
    | some docs =>
      { h with history := (whereUserId uid docs).map toRecord,
               loading := false, refreshing := false }

/-! ## Reading a path, as the specification words it -/

/-- A link of a path: a named property or the element `0`. -/
inductive PathStep where
  | key (name : String) : PathStep
  | first : PathStep

/-- The path `candidates[0].content.parts[0].text`. -/
def textPath : List PathStep :=
  [.key "candidates", .first, .key "content", .key "parts", .first, .key "text"]

/-- The member a link selects in a value, `none` when the value has no such
member. -/
def member (v : JsVal) : PathStep → Option JsVal
  | .key name =>
    match v with
    | .obj fields => ownField fields name
    | _ => none
  | .first =>
    match v with
    | .arr (x :: _) => some x
    | .obj fields => ownField fields "0"
    | .str s =>
      match s.data with
      | [] => none
      | c :: _ => some (.str (String.singleton c))
    | _ => none

/-- Following a path link by link, `none` as soon as a link is missing. -/
def follow (v : JsVal) : List PathStep → Option JsVal
  | [] => some v
  | link :: rest =>
    match member v link with
    | none => none
    | some w => follow w rest

/-- The value at `candidates[0].content.parts[0].text` is present: every link
exists and the value found is neither `null` nor `undefined`. -/
def textPresent (data : JsVal) : Prop :=
  ∃ v, follow data textPath = some v ∧ v.isNullish = false

/-- The optional chain along a path: each link read with `?.`, a missing member
giving `undefined`. -/
def chase (v : JsVal) (path : List PathStep) : JsVal :=
  path.foldl (fun acc link => (member acc link).getD .undefined) v

/-! ## Sample inputs -/

/-- A captured picture. -/
def samplePhoto : Photo := { uri := "file:///leaf.jpg", base64 := "AAAA" }

/-- The screen right after a capture: a photo, no result, nothing in flight. -/
def capturedScreen : Screen := { Screen.initial with photo := some samplePhoto }

/-- A response body wrapping `text` the way the service does:
an object with `candidates[0].content.parts[0].text`. -/
def bodyWithText (text : JsVal) : JsVal :=
  .obj [("candidates", .arr [.obj [("content", .obj [("parts", .arr [.obj [("text", text)]])])]])]

/-- A service that answers every request with status 200 and the given decoded
body. -/
def answering (data : JsVal) : Request → FetchOutcome :=
  fun _ => .response 200 (some data)

/-- A diagnosis as `identifyDisease` sets it. -/
def sampleDiagnosis : Diagnosis :=
  { disease := "Detected Disease", summary := .str "Leaf rust", treatment := "See details above" }

/-- The screen after a successful identification: a photo and a result. -/
def resultedScreen : Screen := { capturedScreen with result := some sampleDiagnosis }

/-- A store that accepts every write. -/
def acceptingStore : List (String × JsVal) → Bool := fun _ => true

/-- A store that rejects every write. -/
def failingStore : List (String × JsVal) → Bool := fun _ => false

/-- A history collection holding records of two owners. -/
def sampleCollection : List StoredDoc :=
  [ { id := "d1", data := [("userId", .str "u1"), ("summary", .str "Leaf rust")] },
    { id := "d2", data := [("userId", .str "u2"), ("summary", .str "Mildew")] } ]

/-- The history screen as mounted. -/
def HistoryScreen.initial : HistoryScreen :=
  { history := [], refreshing := false, loading := true, expandedId := none }

/-- While the screen shows `loading`, exactly one inference call is pending,
and none otherwise. -/
def IdentifyTracksLoading (m : Machine) : Prop :=
  m.identifying.length = if m.screen.loading then 1 else 0

/-- Capture, identify with a well-formed answer, then two presses on Save before
the first write has settled. -/
def doubleSave : List Action :=
  [.tapCapture, .captureDone samplePhoto, .tapIdentify,
   .identifyDone 0 (.response 200 (some (bodyWithText (.str "Leaf rust")))),
   .tapSave, .tapSave]

/-! ## The handlers as try / catch / finally blocks -/

/-- How a block of statements ends: the screen and the effects it leaves, and
the exception it throws, if any. -/
structure Completion where
  screen : Screen
  effects : List Effect
  thrown : Option JsError

/-- The statement `try ... catch (e) ... finally ...`: the catch block runs when
the try block throws, the finally block runs in every case, and the statement
throws what the finally block throws, or else what the catch block throws. -/
def tryCatchFinally (tryBlock : Screen → Completion)
    (catchBlock : JsError → Screen → Completion) (finallyBlock : Screen → Completion)
    (s : Screen) : Completion :=
  let t := tryBlock s
  let c : Completion :=
    match t.thrown with
    | none => t
    | some e =>
      let h := catchBlock e t.screen
      { screen := h.screen, effects := t.effects ++ h.effects, thrown := h.thrown }
  let f := finallyBlock c.screen
  { screen := f.screen, effects := c.effects ++ f.effects,
    thrown := match f.thrown with
      | some e => some e
      | none => c.thrown }

/-- The `try` block of `identifyDisease`. -/
def identifyTryBlock (net : Request → FetchOutcome) (s : Screen) : Completion :=
  let loadingOn := { s with loading := true }
  match identifyRequest s.photo s.language with
  | .error e => { screen := loadingOn, effects := [], thrown := some e }
  | .ok req =>
    match identifyText (net req) with
    | .error e => { screen := loadingOn, effects := [.fetch req], thrown := some e }
    | .ok text =>
      { screen := { loadingOn with
          result := some { disease := "Detected Disease", summary := text,
                           treatment := "See details above" } },
        effects := [.fetch req], thrown := none }

/-- The `catch` block of `identifyDisease`. -/
def identifyCatchBlock (_error : JsError) (s : Screen) : Completion :=
  { screen := s, effects := [.log, .alert "Failed to identify disease"], thrown := none }

/-- The `finally` block of `identifyDisease`. -/
def identifyFinallyBlock (s : Screen) : Completion :=
  { screen := { s with loading := false }, effects := [], thrown := none }

/-- The body of `identifyDisease`, block by block. -/
def identifyDiseaseBlocks (net : Request → FetchOutcome) (s : Screen) : Completion :=
  tryCatchFinally (identifyTryBlock net) identifyCatchBlock identifyFinallyBlock s

/-- The `try` block of `saveToHistory`. -/
def saveTryBlock (session : Option String) (store : List (String × JsVal) → Bool)
    (s : Screen) : Completion :=
  match historyDoc session s.result s.language with
  | .error e => { screen := s, effects := [], thrown := some e }
  | .ok doc =>
    if store doc then
      { screen := retry s,
        effects := [.addDoc "history" doc, .alert "Saved to history 🌱"], thrown := none }
    else
      { screen := s, effects := [.addDoc "history" doc], thrown := some .rejected }

/-- The `catch` block of `saveToHistory`. -/
def saveCatchBlock (_err : JsError) (s : Screen) : Completion :=
  { screen := s, effects := [.alert "Save failed", .log], thrown := none }

/-- The body of `saveToHistory`, block by block; it has no `finally`. -/
def saveToHistoryBlocks (session : Option String) (store : List (String × JsVal) → Bool)
    (s : Screen) : Completion :=
  tryCatchFinally (saveTryBlock session store) saveCatchBlock
    (fun cur => { screen := cur, effects := [], thrown := none }) s

/-- The body of an error response of the service: an object with an `error`
member and no `candidates`. -/
def errorBody : JsVal :=
  .obj [("error", .obj [("code", .num 500), ("message", .str "Internal error")])]

/-- A second picture, taken after `samplePhoto`. -/
def secondPhoto : Photo := { uri := "file:///leaf2.jpg", base64 := "BBBB" }

/-- A machine whose screen is in the Captured state, nothing pending. -/
def capturedMachine : Machine :=
  { Machine.initial (some "u1") with screen := capturedScreen }

/-- Two presses on the capture button before the camera has answered. -/
def doubleCapture : List Action := [.tapCapture, .tapCapture]

/-- Two presses on the capture button; the first picture arrives and is
identified, then the second picture arrives. -/
def lateSecondCapture : List Action :=
  [.tapCapture, .tapCapture, .captureDone samplePhoto, .tapIdentify,
   .identifyDone 0 (.response 200 (some (bodyWithText (.str "Leaf rust")))),
   .captureDone secondPhoto]

/-- Capture, press Identify, and change the language while the call is
pending. -/
def pickWhileIdentifying : List Action :=
  [.tapCapture, .captureDone samplePhoto, .tapIdentify, .pickLanguage "si"]

/-- Capture, identify, press Save, and change the language while the write is
pending. -/
def pickWhileSaving : List Action :=
  [.tapCapture, .captureDone samplePhoto, .tapIdentify,
   .identifyDone 0 (.response 200 (some (bodyWithText (.str "Leaf rust")))),
   .tapSave, .pickLanguage "ta"]

/-! ## Dashboard: filterArticles -/

/-- An article as `fetchArticles` builds it: the bindings of the object
`{ id: doc.id, ...doc.data() }`. -/
abbrev Article := List (String × JsVal)

/-- The characters `String.prototype.trim` strips: the white space and the line
terminators of ECMAScript. -/
def isWhiteSpace (c : Char) : Bool :=
  let n := c.toNat
  n == 0x9 || n == 0xA || n == 0xB || n == 0xC || n == 0xD || n == 0x20 || n == 0xA0 ||
  n == 0x1680 || (decide (0x2000 ≤ n) && decide (n ≤ 0x200A)) || n == 0x2028 || n == 0x2029 ||
  n == 0x202F || n == 0x205F || n == 0x3000 || n == 0xFEFF

/-- The method `String.prototype.trim`. -/
def trim (s : String) : String :=
  ⟨((s.data.dropWhile isWhiteSpace).reverse.dropWhile isWhiteSpace).reverse⟩

/-- Substring search on the characters: whether `needle` occurs in `hay`. -/
def includesChars : List Char → List Char → Bool
  | [], needle => needle.isEmpty
  | c :: rest, needle => needle.isPrefixOf (c :: rest) || includesChars rest needle

/-- The method `String.prototype.includes`. -/
def includes (s search : String) : Bool :=
  includesChars s.data search.data

/-- The method `Array.prototype.filter` for a callback that may throw: the
callback runs on the elements in order, an element is kept when the value
returned is truthy, and the first exception ends the call. -/
def arrayFilter {α : Type} (callback : α → Except JsError JsVal) :
    List α → Except JsError (List α)
  | [] => .ok []
  | a :: rest =>
    match callback a with
    | .error e => .error e
    | .ok keep =>
      match arrayFilter callback rest with
      | .error e => .error e
      | .ok kept => .ok (if keep.truthy then a :: kept else kept)

/-- The call `v.toLowerCase()` on a value that is not `null` or `undefined`: only
a string has the method.  `toLowerCase` is the built-in of the engine. -/
def callToLowerCase (toLowerCase : String → String) (v : JsVal) : Except JsError String :=
  match v with
  | .str s => .ok (toLowerCase s)
  | _ => .error .typeError

/-- The callback of the category filter:
`article.category && article.category.toLowerCase() === selectedCategory.toLowerCase()`. -/
def categoryCallback (toLowerCase : String → String) (selectedCategory : String)
    (article : Article) : Except JsError JsVal :=
  let category := readField article "category"
  if category.truthy then
    match callToLowerCase toLowerCase category with
    | .error e => .error e
    | .ok lowered => .ok (.bool (lowered == toLowerCase selectedCategory))
  else .ok category

/-- One operand of the search callback:
`field?.toLowerCase().includes(searchQuery.toLowerCase())`. -/
def searchTerm (toLowerCase : String → String) (searchQuery : String) (field : JsVal) :
    Except JsError JsVal :=
  if field.isNullish then .ok .undefined
  else
    match callToLowerCase toLowerCase field with
    | .error e => .error e
    | .ok lowered => .ok (.bool (includes lowered (toLowerCase searchQuery)))

/-- The callback of the search filter: the three operands joined by `||`, each
evaluated only when the ones before it are falsy. -/
def searchCallback (toLowerCase : String → String) (searchQuery : String)
    (article : Article) : Except JsError JsVal :=
  match searchTerm toLowerCase searchQuery (readField article "title") with
  | .error e => .error e
  | .ok onTitle =>
    if onTitle.truthy then .ok onTitle
    else
      match searchTerm toLowerCase searchQuery (readField article "summary") with
      | .error e => .error e
      | .ok onSummary =>
        if onSummary.truthy then .ok onSummary
        else searchTerm toLowerCase searchQuery (readField article "category")

/-- The function `filterArticles`: the list it passes to `setFilteredArticles`,
from the state cells `articles`, `searchQuery` and `selectedCategory`. -/
def filterArticles (toLowerCase : String → String) (articles : List Article)
    (searchQuery selectedCategory : String) : Except JsError (List Article) :=
  let byCategory :=
    if selectedCategory ≠ "All" then
      arrayFilter (categoryCallback toLowerCase selectedCategory) articles
    else .ok articles
  match byCategory with
  | .error e => .error e
  | .ok filtered =>
    if trim searchQuery ≠ "" then
      arrayFilter (searchCallback toLowerCase searchQuery) filtered
    else .ok filtered

/-! ## Filtering, as the specification words it -/

/-- A query is blank: it is empty or holds white space only. -/
def isBlank (query : String) : Bool := query.data.all isWhiteSpace

/-- A field holds text or is missing: it is a string, `null` or `undefined`. -/
def isText : JsVal → Bool
  | .str _ => true
  | .null => true
  | .undefined => true
  | _ => false

/-- The three fields the search looks at hold text or are missing. -/
def textFieldsTyped (article : Article) : Bool :=
  isText (readField article "title") && (isText (readField article "summary") &&
    isText (readField article "category"))

/-- The article has a category, and it equals the selected one ignoring letter
case. -/
def hasCategory (toLowerCase : String → String) (selectedCategory : String)
    (article : Article) : Bool :=
  match readField article "category" with
  | .str s => s != "" && toLowerCase s == toLowerCase selectedCategory
  | _ => false

/-- The articles that pass the category filter, in their original order. -/
def categoryView (toLowerCase : String → String) (selectedCategory : String)
    (articles : List Article) : List Article :=
  if selectedCategory = "All" then articles
  else articles.filter (hasCategory toLowerCase selectedCategory)

/-- The query occurs in the field `key` of the article as a substring, ignoring
letter case. -/
def fieldContains (toLowerCase : String → String) (searchQuery : String) (article : Article)
    (key : String) : Bool :=
  match readField article key with
  | .str s => decide ((toLowerCase searchQuery).data <:+: (toLowerCase s).data)
  | _ => false

/-- The query occurs in the title, the summary or the category of the article. -/
def queryOccurs (toLowerCase : String → String) (searchQuery : String) (article : Article) :
    Bool :=
  fieldContains toLowerCase searchQuery article "title" ||
    (fieldContains toLowerCase searchQuery article "summary" ||
      fieldContains toLowerCase searchQuery article "category")

/-- Lower case on the letters A to Z, all other characters unchanged: what
`toLowerCase` does on ASCII text. -/
def asciiLowerCase (s : String) : String := ⟨s.data.map Char.toLower⟩

/-- The two articles of Scenario 1. -/
def scenarioArticles : List Article :=
  [[("title", .str "Leaf Spot"), ("category", .str "Diseases")],
   [("title", .str "Watering Tips"), ("category", .str "Watering")]]

/-! ## Dashboard: fetchArticles and the state of the screen -/

/-- The expression `a.createdAt?.toDate() || new Date(0)`, as the time value of
the date in milliseconds.  A stored `Timestamp` is carried by the time value of
the date its `toDate()` returns; a date object is always truthy, so the epoch
stands in exactly when `createdAt` is `null` or `undefined`; any other value has
no `toDate` method. -/
def createdDate (article : Article) : Except JsError Int :=
  match readField article "createdAt" with
  | .undefined => .ok 0
  | .null => .ok 0
  | .timestamp millis => .ok millis
  | _ => .error .typeError

/-- The comparator of the sort in `fetchArticles`: `dateB - dateA`. -/
def compareCreated (a b : Article) : Except JsError Int :=
  match createdDate a with
  | .error e => .error e
  | .ok dateA =>
    match createdDate b with
    | .error e => .error e
    | .ok dateB => .ok (dateB - dateA)

/-- Insertion of an element into a sorted list, before the first element the
comparator does not put ahead of it. -/
def sortedInsert {α : Type} (compare : α → α → Except JsError Int) (a : α) :
    List α → Except JsError (List α)
  | [] => .ok [a]
  | b :: rest =>
    match compare a b with
    | .error e => .error e
    | .ok order =>
      if order ≤ 0 then .ok (a :: b :: rest)
      else
        match sortedInsert compare a rest with
        | .error e => .error e
        | .ok inserted => .ok (b :: inserted)

/-- The method `Array.prototype.sort` with a comparator that may throw.  The
method is a stable sort; it is written here as an insertion sort, which returns
what every stable sort returns for a comparator that orders by a key, and which
calls the comparator on every element as soon as there are two of them. -/
def arraySort {α : Type} (compare : α → α → Except JsError Int) :
    List α → Except JsError (List α)
  | [] => .ok []
  | a :: rest =>
    match arraySort compare rest with
    | .error e => .error e
    | .ok sorted => sortedInsert compare a sorted

/-- The article built from a document: `{ id: doc.id, ...doc.data() }`. -/
def toArticle (d : StoredDoc) : Article :=
  spread [("id", .str d.id)] d.data

/-- One whole run of `fetchArticles`: the new value of the state cell `articles`.
`snapshot` is the content of the `articles` collection when `getDocs` succeeds
and `none` when it rejects; an exception inside the `try` block, thrown by the
comparator as well, leaves the cell as it was. -/
def fetchArticles (snapshot : Option (List StoredDoc)) (articles : List Article) :
    List Article :=
  match snapshot with
  | none => articles
  | some [] => []
  | some docs =>
    match arraySort compareCreated (docs.map toArticle) with
    | .error _ => articles
    | .ok sorted => sorted

/-- The state cells of `Dashboard` that the filtering reads and writes. -/
structure Dashboard where
  articles : List Article
  filteredArticles : List Article
  searchQuery : String
  selectedCategory : String

/-- The effect of `filterArticles` on the screen: `setFilteredArticles` with the
list computed from `articles`, `searchQuery` and `selectedCategory`. -/
def applyFilterArticles (toLowerCase : String → String) (d : Dashboard) :
    Except JsError Dashboard :=
  match filterArticles toLowerCase d.articles d.searchQuery d.selectedCategory with
  | .error e => .error e
  | .ok filtered => .ok { d with filteredArticles := filtered }

/-- The time an article is ordered by: that of its `createdAt`, the epoch when
it has none. -/
def createdMillis (article : Article) : Int :=
  match readField article "createdAt" with
  | .timestamp millis => millis
  | _ => 0

/-- A list of articles is ordered most recent first. -/
def NewestFirst (l : List Article) : Prop :=
  l.Pairwise fun a b => createdMillis b ≤ createdMillis a

/-- Three documents of the `articles` collection: an older one, one without
`createdAt`, and a newer one. -/
def articleDocs : List StoredDoc :=
  [ { id := "a1", data := [("title", .str "Leaf Spot"), ("createdAt", .timestamp 1000)] },
    { id := "a2", data := [("title", .str "Watering Tips")] },
    { id := "a3", data := [("title", .str "Pruning"), ("createdAt", .timestamp 3000)] } ]

/-- The articles of `articleDocs`, most recent first. -/
def articlesNewestFirst : List Article :=
  [ [("id", .str "a3"), ("title", .str "Pruning"), ("createdAt", .timestamp 3000)],
    [("id", .str "a1"), ("title", .str "Leaf Spot"), ("createdAt", .timestamp 1000)],
    [("id", .str "a2"), ("title", .str "Watering Tips")] ]

/-! ## History: the card -/

/-- The function `formatDate`.  `format` stands for the second half of the
function, the conversion of a truthy value into a date and the call of
`toLocaleDateString`, both built into the engine. -/
def formatDate (format : JsVal → String) (timestamp : JsVal) : String :=
  if !timestamp.truthy then "No date" else format timestamp

/-- The date label of a history card: `formatDate(item.timestamp)`. -/
def dateLabel (format : JsVal → String) (item : JsVal) : Except JsError String :=
  match getProp item "timestamp" with
  | .error e => .error e
  | .ok timestamp => .ok (formatDate format timestamp)

/-- The fields `saveToHistory` writes, in the order of the object literal. -/
def historyFields : List String :=
  ["userId", "disease", "summary", "treatment", "language", "createdAt"]

/-- Two records of the owner `u1` as the store returns them, the older one
first. -/
def olderFirstDocs : List StoredDoc :=
  [ { id := "h1", data := [("userId", .str "u1"), ("summary", .str "Leaf rust"),
        ("createdAt", .timestamp 1000)] },
    { id := "h2", data := [("userId", .str "u1"), ("summary", .str "Mildew"),
        ("createdAt", .timestamp 2000)] } ]

/-- A document of the owner `u1` whose data holds a field named `id`. -/
def docWithIdField : StoredDoc :=
  { id := "h3", data := [("userId", .str "u1"), ("id", .str "legacy-7")] }

/-- A document as `saveToHistory` writes it, the marker resolved by the store. -/
def savedDoc : StoredDoc :=
  { id := "h4",
    data := [("userId", .str "u1"), ("disease", .str "Detected Disease"),
      ("summary", .str "Leaf rust"), ("treatment", .str "See details above"),
      ("language", .str "en"), ("createdAt", .timestamp 5000)] }

/-- The first document of `sampleCollection`. -/
def firstSampleDoc : StoredDoc :=
  { id := "d1", data := [("userId", .str "u1"), ("summary", .str "Leaf rust")] }

/-- The screen of Scenario 1 before the filter has run. -/
def scenarioDashboard : Dashboard :=
  { articles := scenarioArticles, filteredArticles := [], searchQuery := "diseases",
    selectedCategory := "All" }

/-- A save is pressed and, before the write settles, the user retries, captures
again and presses Identify; then the write settles. -/
def saveSettlesWhileIdentifying : List Action :=
  [.tapCapture, .captureDone samplePhoto, .tapIdentify,
   .identifyDone 0 (.response 200 (some (bodyWithText (.str "Leaf rust")))),
   .tapSave, .tapRetry, .tapCapture, .captureDone secondPhoto, .tapIdentify,
   .saveDone 0 true]

/-- Capture, identify under the language `en`, choose `si`, save. -/
def saveAfterLanguageChange : List Action :=
  [.tapCapture, .captureDone samplePhoto, .tapIdentify,
   .identifyDone 0 (.response 200 (some (bodyWithText (.str "Leaf rust")))),
   .pickLanguage "si", .tapSave, .saveDone 0 true]

/-- The instruction text of a request: `contents[0].parts[0].text` of its
body. -/
def instructionOf (req : Request) : Option JsVal :=
  follow req.body [.key "contents", .first, .key "parts", .first, .key "text"]

/-! ## Profile: deleteAccount -/

/-- The services behind the profile screen: the session (`auth.currentUser`),
the accounts of the identity provider, and the `users` and `history`
collections of the store. -/
structure Backend where
  session : Option String
  accounts : List String
  users : List StoredDoc
  history : List StoredDoc

/-- The handler behind the `Delete` button of the confirmation dialog that
`deleteAccount` opens.  `deleteDoc` and `deleteUser` tell how the two awaited
calls settle: `none` when the call resolves, the error code when it rejects.
The result is the backend afterwards and the messages of the alerts shown. -/
def deleteAccount (deleteDoc deleteUser : Option String) (b : Backend) :
    Backend × List String :=
  let failure (code : String) : String :=
    if code = "auth/requires-recent-login" then
      "For security reasons, this operation requires a recent sign-in. Please sign in again and try deleting your account."
    else "Could not delete account. Please try again later."
  match b.session with
  | none => (b, ["No user is signed in."])
  | some uid =>
    match deleteDoc with
    | some code => (b, [failure code])
    | none =>
      let withoutProfile := { b with users := b.users.filter fun d => d.id != uid }
      match deleteUser with
      | some code => (withoutProfile, [failure code])
      | none =>
        ({ withoutProfile with
            accounts := withoutProfile.accounts.filter fun a => a != uid,
            session := none },
          ["Your account has been permanently deleted. We hope to see you again!"])

/-- The user `u1` signed in, with a profile document and two history records. -/
def sampleBackend : Backend :=
  { session := some "u1", accounts := ["u1", "u2"],
    users := [{ id := "u1", data := [("username", .str "leaf_lover")] }],
    history := olderFirstDocs }

/-! ## Signup: validateUsername -/

/-- The property `length` of a string: its number of UTF-16 code units. -/
def jsLength (s : String) : Nat :=
  (s.data.map fun c => if c.toNat < 0x10000 then 1 else 2).sum

/-- The character class `[a-zA-Z0-9_]`. -/
def isWordChar (c : Char) : Bool :=
  c.isLower || c.isUpper || c.isDigit || c == '_'

/-- The test `/^[a-zA-Z0-9_]+$/.test(username)`. -/
def matchesUsernamePattern (username : String) : Bool :=
  !username.data.isEmpty && username.data.all isWordChar

/-- The function `validateUsername`: the value it returns and the message it
passes to `setUsernameError`. -/
def validateUsername (username : String) : Bool × String :=
  if username = "" then (false, "Username is required")
  else if jsLength username < 3 then (false, "Username must be at least 3 characters")
  else if jsLength username > 20 then (false, "Username must be less than 20 characters")
  else if !matchesUsernamePattern username then
    (false, "Username can only contain letters, numbers, and underscores")
  else (true, "")

/-- A username of twenty letters. -/
def twentyLetters : String := "abcdefghijklmnopqrst"

/-! ## Lemmas on values and paths -/

theorem member_undefined (link : PathStep) : member .undefined link = none := by
  cases link <;> rfl

theorem member_null (link : PathStep) : member .null link = none := by
  cases link <;> rfl

theorem optProp_eq_member (v : JsVal) (key : String) :
    optProp v key = (member v (.key key)).getD .undefined := by
  cases v <;> rfl

theorem optIndex0_eq_member (v : JsVal) :
    optIndex0 v = (member v .first).getD .undefined := by
  cases v with
  | arr items => cases items <;> rfl
  | str s =>
    simp only [optIndex0, member]
    cases s.data <;> rfl
  | _ => rfl

theorem getProp_of_not_nullish (v : JsVal) (key : String) (h : v.isNullish = false) :
    getProp v key = .ok (optProp v key) := by
  cases v <;> first | rfl | simp [JsVal.isNullish] at h

theorem chase_undefined (path : List PathStep) : chase .undefined path = .undefined := by
  induction path with
  | nil => rfl
  | cons link rest ih => simpa [chase, member_undefined] using ih

theorem chase_eq_follow (v : JsVal) (path : List PathStep) :
    chase v path = (follow v path).getD .undefined := by
  induction path generalizing v with
  | nil => rfl
  | cons link rest ih =>
    cases hm : member v link with
    | none =>
      have h := chase_undefined rest
      simp only [chase, List.foldl, hm, follow, Option.getD] at h ⊢
      exact h
    | some w =>
      have h := ih w
      simp only [chase, List.foldl, hm, follow, Option.getD] at h ⊢
      exact h

/-- The optional chain of `identifyDisease` reads the value the path leads to. -/
theorem extractText_eq_follow (data : JsVal) (h : data.isNullish = false) :
    extractText data
      = .ok (JsVal.orElse ((follow data textPath).getD .undefined) (.str "No result")) := by
  rw [← chase_eq_follow]
  simp only [extractText, getProp_of_not_nullish data "candidates" h, optProp_eq_member,
    optIndex0_eq_member, chase, textPath, List.foldl]

theorem orElse_of_truthy (a b : JsVal) (h : a.truthy = true) : JsVal.orElse a b = a := by
  simp [JsVal.orElse, h]

theorem orElse_of_falsy (a b : JsVal) (h : a.truthy = false) : JsVal.orElse a b = b := by
  simp [JsVal.orElse, h]

theorem truthy_of_nullish (v : JsVal) (h : v.isNullish = true) : v.truthy = false := by
  cases v <;> first | rfl | simp [JsVal.isNullish] at h

theorem orElse_sentinel_truthy (a : JsVal) : (JsVal.orElse a (.str "No result")).truthy = true := by
  unfold JsVal.orElse
  split
  · assumption
  · decide

/-- What a run of `identifyDisease` leaves on the screen when the request could
be built. -/
theorem identifyDisease_screen (net : Request → FetchOutcome) (s : Screen) (p : Photo)
    (hphoto : s.photo = some p) :
    (identifyDisease net s).1
      = (identifySettled (net (buildRequest p s.language)) { s with loading := true }).1 := by
  simp [identifyDisease, identifyRequest, hphoto]

/-! ## identifyDisease: the summary of the result -/

/-- Claim C1 (sentinel law).  For every decoded response object in which the path
`candidates[0].content.parts[0].text` is not present (a link is missing, or the
value found is `null` or `undefined`), the result that `identifyDisease` sets has
the summary `"No result"`. -/
theorem identifyDisease_sentinel (net : Request → FetchOutcome) (s : Screen) (p : Photo)
    (status : Nat) (fields : List (String × JsVal))
    (hphoto : s.photo = some p)
    (hnet : net (buildRequest p s.language) = .response status (some (.obj fields)))
    (habsent : ¬ textPresent (.obj fields)) :
    (identifyDisease net s).1.result.map Diagnosis.summary = some (.str "No result") := by
  rw [identifyDisease_screen net s p hphoto, hnet]
  have hx := extractText_eq_follow (.obj fields) rfl
  have hfalsy : ((follow (.obj fields) textPath).getD .undefined).truthy = false := by
    cases hf : follow (.obj fields) textPath with
    | none => rfl
    | some v =>
      cases hn : v.isNullish with
      | true => exact truthy_of_nullish v hn
      | false => exact absurd ⟨v, hf, hn⟩ habsent
  rw [orElse_of_falsy _ _ hfalsy] at hx
  simp [identifySettled, identifyText, hx]

/-- Scenario 2 of the specification: the service returns an object whose
`candidates` is the empty array. -/
theorem identifyDisease_sentinel_witness :
    ¬ textPresent (.obj [("candidates", .arr [])]) ∧
    (identifyDisease (answering (.obj [("candidates", .arr [])])) capturedScreen).1.result.map
        Diagnosis.summary = some (.str "No result") :=
  have habsent : ¬ textPresent (.obj [("candidates", .arr [])]) := by
    rintro ⟨v, hv, _⟩
    simp [follow, textPath, member, ownField] at hv
  ⟨habsent, identifyDisease_sentinel _ capturedScreen samplePhoto 200 _ rfl rfl habsent⟩

theorem extractText_truthy (data text : JsVal) (h : extractText data = .ok text) :
    text.truthy = true := by
  unfold extractText at h
  split at h
  · cases h
  · cases h
    exact orElse_sentinel_truthy _

theorem follow_textPath_not_nullish (data v : JsVal) (h : follow data textPath = some v) :
    data.isNullish = false := by
  cases data <;> first | rfl | simp [follow, textPath, member] at h

/-- The result `identifyDisease` sets when a response body decodes to a value
that is not `null`. -/
theorem identifyDisease_result (net : Request → FetchOutcome) (s : Screen) (p : Photo)
    (status : Nat) (data : JsVal)
    (hphoto : s.photo = some p) (hdata : data.isNullish = false)
    (hnet : net (buildRequest p s.language) = .response status (some data)) :
    (identifyDisease net s).1.result
      = some { disease := "Detected Disease",
               summary := JsVal.orElse ((follow data textPath).getD .undefined) (.str "No result"),
               treatment := "See details above" } := by
  rw [identifyDisease_screen net s p hphoto, hnet]
  simp [identifySettled, identifyText, extractText_eq_follow data hdata]

/-- Claim C4, refuted as stated.  A response whose text is the number 42 yields
the summary 42, which is neither a string nor the sentinel; a response body that
is `null` yields no result at all. -/
theorem identifyDisease_shape_counterexample :
    (identifyDisease (answering (bodyWithText (.num 42))) capturedScreen).1.result.map
        Diagnosis.summary = some (.num 42) ∧
    (∀ t : String,
      (identifyDisease (answering (bodyWithText (.num 42))) capturedScreen).1.result.map
        Diagnosis.summary ≠ some (.str t)) ∧
    (identifyDisease (answering .null) capturedScreen).1.result.isNone = true := by
  have h42 : (identifyDisease (answering (bodyWithText (.num 42))) capturedScreen).1.result.map
      Diagnosis.summary = some (.num 42) := by
    rw [identifyDisease_result _ capturedScreen samplePhoto 200 (bodyWithText (.num 42)) rfl rfl rfl]
    simp [bodyWithText, follow, textPath, member, ownField, JsVal.orElse, JsVal.truthy]
  refine ⟨h42, ?_, rfl⟩
  intro t ht
  rw [h42] at ht
  cases ht

/-- Claim C4, amended.  For every decoded response body other than `null`,
`identifyDisease` sets a result whose summary is the value found at
`candidates[0].content.parts[0].text` when that value is truthy, and the
sentinel `"No result"` in every other case (a missing link, a `candidates` that
is not an array, a falsy text); when the value found is a string, the summary
is that string or the sentinel. -/
theorem identifyDisease_summary_shape (net : Request → FetchOutcome) (s : Screen) (p : Photo)
    (status : Nat) (data : JsVal)
    (hphoto : s.photo = some p) (hdata : data.isNullish = false)
    (hnet : net (buildRequest p s.language) = .response status (some data)) :
    ∃ r, (identifyDisease net s).1.result = some r ∧
      ((∃ v, follow data textPath = some v ∧ v.truthy = true ∧ r.summary = v) ∨
        ((∀ v, follow data textPath = some v → v.truthy = false) ∧
          r.summary = .str "No result")) ∧
      (∀ t, follow data textPath = some (.str t) →
        r.summary = .str t ∨ r.summary = .str "No result") := by
  refine ⟨_, identifyDisease_result net s p status data hphoto hdata hnet, ?_, ?_⟩
  · cases hf : follow data textPath with
    | none =>
      right
      exact ⟨fun v hv => Option.noConfusion hv, orElse_of_falsy .undefined _ rfl⟩
    | some v =>
      cases ht : v.truthy with
      | true => exact Or.inl ⟨v, rfl, ht, orElse_of_truthy _ _ ht⟩
      | false =>
        right
        refine ⟨fun w hw => ?_, orElse_of_falsy _ _ ht⟩
        cases hw
        exact ht
  · intro t ht
    simp only [ht, Option.getD]
    cases hs : (JsVal.str t).truthy with
    | true => exact Or.inl (orElse_of_truthy _ _ hs)
    | false => exact Or.inr (orElse_of_falsy _ _ hs)

/-- A well-formed response: the summary is the text of the response. -/
theorem identifyDisease_summary_shape_witness :
    ∃ r, (identifyDisease (answering (bodyWithText (.str "Leaf rust"))) capturedScreen).1.result
        = some r ∧
      ((∃ v, follow (bodyWithText (.str "Leaf rust")) textPath = some v ∧ v.truthy = true ∧
          r.summary = v) ∨
        ((∀ v, follow (bodyWithText (.str "Leaf rust")) textPath = some v → v.truthy = false) ∧
          r.summary = .str "No result")) ∧
      (∀ t, follow (bodyWithText (.str "Leaf rust")) textPath = some (.str t) →
        r.summary = .str t ∨ r.summary = .str "No result") :=
  identifyDisease_summary_shape (answering (bodyWithText (.str "Leaf rust"))) capturedScreen
    samplePhoto 200 (bodyWithText (.str "Leaf rust")) rfl rfl rfl

/-- Claim C5 (summary non-emptiness).  Whenever `identifyDisease` sets a result,
its summary is not the empty string, not `null` and not `undefined`; in
particular a response whose text is present but is the empty string yields the
summary `"No result"`. -/
theorem identifyDisease_summary_nonempty (net : Request → FetchOutcome) (s : Screen)
    (r : Diagnosis) (hbefore : s.result = none)
    (hset : (identifyDisease net s).1.result = some r) :
    r.summary ≠ .str "" ∧ r.summary ≠ .null ∧ r.summary ≠ .undefined ∧
    (∀ p status data, s.photo = some p →
      net (buildRequest p s.language) = .response status (some data) →
      follow data textPath = some (.str "") → r.summary = .str "No result") := by
  have htruthy : r.summary.truthy = true := by
    cases hp : s.photo with
    | none =>
      simp [identifyDisease, identifyRequest, hp, hbefore] at hset
    | some p =>
      rw [identifyDisease_screen net s p hp] at hset
      unfold identifySettled at hset
      split at hset
      · next text htext =>
        simp at hset
        subst hset
        unfold identifyText at htext
        split at htext
        · cases htext
        · cases htext
        · exact extractText_truthy _ _ htext
      · simp [hbefore] at hset
  refine ⟨?_, ?_, ?_, ?_⟩
  · intro h
    rw [h] at htruthy
    cases htruthy
  · intro h
    rw [h] at htruthy
    cases htruthy
  · intro h
    rw [h] at htruthy
    cases htruthy
  · intro p status data hp hnet hf
    have hd := follow_textPath_not_nullish data _ hf
    have hres := identifyDisease_result net s p status data hp hd hnet
    rw [hset, hf] at hres
    injection hres with hres
    rw [hres]
    exact orElse_of_falsy (.str "") _ rfl

/-- A response whose text is the empty string. -/
theorem identifyDisease_summary_nonempty_witness :
    capturedScreen.result = none ∧
    (identifyDisease (answering (bodyWithText (.str ""))) capturedScreen).1.result
      = some { disease := "Detected Disease", summary := .str "No result",
               treatment := "See details above" } ∧
    (JsVal.str "No result" ≠ .str "" ∧ JsVal.str "No result" ≠ .null ∧
      JsVal.str "No result" ≠ .undefined) :=
  have hset : (identifyDisease (answering (bodyWithText (.str ""))) capturedScreen).1.result
      = some { disease := "Detected Disease", summary := .str "No result",
               treatment := "See details above" } := by
    rw [identifyDisease_result _ capturedScreen samplePhoto 200 (bodyWithText (.str "")) rfl rfl rfl]
    simp [bodyWithText, follow, textPath, member, ownField, JsVal.orElse, JsVal.truthy]
  have h := identifyDisease_summary_nonempty (answering (bodyWithText (.str ""))) capturedScreen
    _ rfl hset
  ⟨rfl, hset, h.1, h.2.1, h.2.2.1⟩

/-! ## saveToHistory -/

theorem saveToHistory_writes (session : Option String) (store : List (String × JsVal) → Bool)
    (s : Screen) :
    writes (saveToHistory session store s).2
      = match historyDoc session s.result s.language with
        | .ok doc => [doc]
        | .error _ => [] := by
  unfold saveToHistory
  cases hd : historyDoc session s.result s.language with
  | error e => rfl
  | ok doc => cases hs : store doc <;> simp [saveSettled, hs, writes]

theorem historyDoc_userId (uid : String) (result : Option Diagnosis) (language : String)
    (doc : List (String × JsVal)) (h : historyDoc (some uid) result language = .ok doc) :
    ownField doc "userId" = some (.str uid) := by
  cases result with
  | none => simp [historyDoc] at h
  | some r =>
    simp only [historyDoc, Except.ok.injEq] at h
    subst h
    simp [ownField]

theorem saveToHistory_write_userId (uid : String) (store : List (String × JsVal) → Bool)
    (s : Screen) (doc : List (String × JsVal))
    (h : doc ∈ writes (saveToHistory (some uid) store s).2) :
    ownField doc "userId" = some (.str uid) := by
  rw [saveToHistory_writes] at h
  split at h
  · next d hd =>
    rw [List.mem_singleton] at h
    subst h
    exact historyDoc_userId uid _ _ _ hd
  · cases h

/-- Claim C2.  Every document that `saveToHistory` hands to the store carries as
`userId` the uid of the current session, whatever the result, the photo and the
language are: two runs under the same session write the same `userId`. -/
theorem saveToHistory_owner (uid : String) (store₁ store₂ : List (String × JsVal) → Bool)
    (s₁ s₂ : Screen) (d₁ d₂ : List (String × JsVal))
    (h₁ : d₁ ∈ writes (saveToHistory (some uid) store₁ s₁).2)
    (h₂ : d₂ ∈ writes (saveToHistory (some uid) store₂ s₂).2) :
    ownField d₁ "userId" = some (.str uid) ∧ ownField d₂ "userId" = ownField d₁ "userId" := by
  have e₁ := saveToHistory_write_userId uid store₁ s₁ d₁ h₁
  have e₂ := saveToHistory_write_userId uid store₂ s₂ d₂ h₂
  exact ⟨e₁, e₂.trans e₁.symm⟩

/-- Two saves under the session `u1`, with different results and languages. -/
theorem saveToHistory_owner_witness :
    ownField
        [("userId", .str "u1"), ("disease", .str "Detected Disease"),
          ("summary", .str "Leaf rust"), ("treatment", .str "See details above"),
          ("language", .str "en"), ("createdAt", .serverTimestamp)] "userId"
      = some (.str "u1") ∧
    ownField
        [("userId", .str "u1"), ("disease", .str "Detected Disease"),
          ("summary", .str "No result"), ("treatment", .str "See details above"),
          ("language", .str "ta"), ("createdAt", .serverTimestamp)] "userId"
      = ownField
        [("userId", .str "u1"), ("disease", .str "Detected Disease"),
          ("summary", .str "Leaf rust"), ("treatment", .str "See details above"),
          ("language", .str "en"), ("createdAt", .serverTimestamp)] "userId" :=
  saveToHistory_owner "u1" acceptingStore failingStore resultedScreen
    { photo := none, loading := true, language := "ta",
      result := some { disease := "Detected Disease", summary := .str "No result",
                       treatment := "See details above" } }
    _ _ (List.mem_singleton.mpr rfl) (List.mem_singleton.mpr rfl)

/-- Claim C7.  `saveToHistory` invoked without a result writes no document and
leaves photo, result, loading and language as they were; the save control is
not even rendered in such a state. -/
theorem saveToHistory_without_result (session : Option String)
    (store : List (String × JsVal) → Bool) (s : Screen) (hnone : s.result = none) :
    (saveToHistory session store s).1 = s ∧
    writes (saveToHistory session store s).2 = [] ∧
    (∀ m : Machine, m.screen = s → step m .tapSave = none) := by
  have hdoc : ∃ e, historyDoc session s.result s.language = .error e := by
    rw [hnone]
    cases session <;> exact ⟨_, rfl⟩
  obtain ⟨e, he⟩ := hdoc
  refine ⟨?_, ?_, ?_⟩
  · simp [saveToHistory, he]
  · rw [saveToHistory_writes, he]
  · intro m hm
    simp [step, Screen.showsResult, hm, hnone]

/-- Save pressed in the Captured state, and while identifying. -/
theorem saveToHistory_without_result_witness :
    capturedScreen.result = none ∧
    (saveToHistory (some "u1") acceptingStore capturedScreen).1 = capturedScreen ∧
    writes (saveToHistory (some "u1") acceptingStore capturedScreen).2 = [] ∧
    (∀ m : Machine, m.screen = capturedScreen → step m .tapSave = none) :=
  ⟨rfl, saveToHistory_without_result (some "u1") acceptingStore capturedScreen rfl⟩

/-- Claim C8.  When there is no session, or the store rejects the write,
`saveToHistory` leaves photo, result, loading and language exactly as they
were, and calls `addDoc` at most once: the write is not retried. -/
theorem saveToHistory_failure (session : Option String)
    (store : List (String × JsVal) → Bool) (s : Screen)
    (hfail : session = none ∨
      ∀ doc, historyDoc session s.result s.language = .ok doc → store doc = false) :
    (saveToHistory session store s).1 = s ∧
    (writes (saveToHistory session store s).2).length ≤ 1 := by
  constructor
  · unfold saveToHistory
    split
    · rfl
    · next doc hdoc =>
      rcases hfail with h | h
      · simp [h, historyDoc] at hdoc
      · simp [saveSettled, h doc hdoc]
  · rw [saveToHistory_writes]
    split <;> simp

/-- A rejected write from the Resulted state. -/
theorem saveToHistory_failure_witness :
    (saveToHistory (some "u1") failingStore resultedScreen).1 = resultedScreen ∧
    (writes (saveToHistory (some "u1") failingStore resultedScreen).2).length ≤ 1 :=
  saveToHistory_failure (some "u1") failingStore resultedScreen (Or.inr fun _ _ => rfl)

/-- Claim C9.  When the store accepts the write, `saveToHistory` calls `addDoc`
exactly once, with the document built from the result, and afterwards photo and
result are both null. -/
theorem saveToHistory_success (session : Option String)
    (store : List (String × JsVal) → Bool) (s : Screen) (doc : List (String × JsVal))
    (hdoc : historyDoc session s.result s.language = .ok doc) (hok : store doc = true) :
    writes (saveToHistory session store s).2 = [doc] ∧
    (saveToHistory session store s).1.photo = none ∧
    (saveToHistory session store s).1.result = none := by
  refine ⟨?_, ?_, ?_⟩
  · rw [saveToHistory_writes, hdoc]
  · simp [saveToHistory, hdoc, saveSettled, hok, retry]
  · simp [saveToHistory, hdoc, saveSettled, hok, retry]

/-- An accepted write from the Resulted state. -/
theorem saveToHistory_success_witness :
    writes (saveToHistory (some "u1") acceptingStore resultedScreen).2
      = [[("userId", .str "u1"), ("disease", .str "Detected Disease"),
          ("summary", .str "Leaf rust"), ("treatment", .str "See details above"),
          ("language", .str "en"), ("createdAt", .serverTimestamp)]] ∧
    (saveToHistory (some "u1") acceptingStore resultedScreen).1.photo = none ∧
    (saveToHistory (some "u1") acceptingStore resultedScreen).1.result = none :=
  saveToHistory_success (some "u1") acceptingStore resultedScreen _ rfl rfl

/-! ## identifyDisease: failure of the call -/

/-- Claim C10.  When `fetch` rejects or the body of the response cannot be
decoded, `identifyDisease` leaves the screen in the Captured state: the result
stays null, photo and language are unchanged and loading is false. -/
theorem identifyDisease_failure (net : Request → FetchOutcome) (s : Screen) (p : Photo)
    (hphoto : s.photo = some p) (hresult : s.result = none)
    (hfail : net (buildRequest p s.language) = .rejects ∨
      ∃ status, net (buildRequest p s.language) = .response status none) :
    (identifyDisease net s).1.result = none ∧
    (identifyDisease net s).1.photo = some p ∧
    (identifyDisease net s).1.language = s.language ∧
    (identifyDisease net s).1.loading = false := by
  rw [identifyDisease_screen net s p hphoto]
  rcases hfail with h | ⟨status, h⟩ <;>
    simp [h, identifySettled, identifyText, hphoto, hresult]

/-- A transport error in the Captured state. -/
theorem identifyDisease_failure_witness :
    (identifyDisease (fun _ => .rejects) capturedScreen).1.result = none ∧
    (identifyDisease (fun _ => .rejects) capturedScreen).1.photo = some samplePhoto ∧
    (identifyDisease (fun _ => .rejects) capturedScreen).1.language = capturedScreen.language ∧
    (identifyDisease (fun _ => .rejects) capturedScreen).1.loading = false :=
  identifyDisease_failure (fun _ => .rejects) capturedScreen samplePhoto rfl rfl (Or.inl rfl)

/-! ## loadHistory -/

theorem ownField_append_of_none (a b : List (String × JsVal)) (key : String)
    (h : ownField a key = none) : ownField (a ++ b) key = ownField b key := by
  induction a with
  | nil => rfl
  | cons kv rest ih =>
    obtain ⟨k, v⟩ := kv
    by_cases hk : k = key
    · simp [ownField, hk] at h
    · simp only [ownField, hk, if_false] at h
      simp only [List.cons_append, ownField, hk, if_false]
      exact ih h

theorem ownField_filter_shadowed (base ext : List (String × JsVal)) (key : String) (v : JsVal)
    (h : ownField ext key = some v) :
    ownField (base.filter fun kv => (ownField ext kv.1).isNone) key = none := by
  induction base with
  | nil => rfl
  | cons kv rest ih =>
    obtain ⟨k, w⟩ := kv
    by_cases hk : k = key
    · subst hk
      simpa [List.filter, h] using ih
    · cases hf : (ownField ext k).isNone with
      | true => simpa [List.filter, hf, ownField, hk] using ih
      | false => simpa [List.filter, hf] using ih

/-- A property defined by the spread object wins over the base object. -/
theorem ownField_spread (base ext : List (String × JsVal)) (key : String) (v : JsVal)
    (h : ownField ext key = some v) : ownField (spread base ext) key = some v := by
  unfold spread
  rw [ownField_append_of_none _ _ _ (ownField_filter_shadowed base ext key v h), h]

/-- Claim C3.  With the equality query read as a filter on the `userId` field,
every record that `loadHistory` puts into the history list has `userId` equal to
the uid of the session, whatever the collection contains. -/
theorem loadHistory_owner (uid : String) (docs : List StoredDoc) (h : HistoryScreen)
    (r : JsVal) (hr : r ∈ (loadHistory (some uid) (some docs) h).history) :
    optProp r "userId" = .str uid := by
  simp only [loadHistory, List.mem_map] at hr
  obtain ⟨d, hd, rfl⟩ := hr
  simp only [whereUserId, List.mem_filter] at hd
  obtain ⟨_, hpred⟩ := hd
  split at hpred
  · next s hs =>
    have hsu : s = uid := by simpa using hpred
    subst hsu
    simp [toRecord, optProp, readField, ownField_spread _ _ _ _ hs]
  · cases hpred

/-- The session `u1` reading a collection that also holds a record of `u2`. -/
theorem loadHistory_owner_witness :
    (loadHistory (some "u1") (some sampleCollection) HistoryScreen.initial).history
      = [.obj [("id", .str "d1"), ("userId", .str "u1"), ("summary", .str "Leaf rust")]] ∧
    optProp (.obj [("id", .str "d1"), ("userId", .str "u1"), ("summary", .str "Leaf rust")])
      "userId" = .str "u1" :=
  have hl : (loadHistory (some "u1") (some sampleCollection) HistoryScreen.initial).history
      = [.obj [("id", .str "d1"), ("userId", .str "u1"), ("summary", .str "Leaf rust")]] := by
    simp [loadHistory, sampleCollection, whereUserId, ownField, toRecord, spread]
  ⟨hl, loadHistory_owner "u1" sampleCollection HistoryScreen.initial _
    (hl ▸ List.mem_singleton.mpr rfl)⟩

/-! ## Calls in flight -/

theorem identifySettled_loading (o : FetchOutcome) (cur : Screen) :
    (identifySettled o cur).1.loading = false := by
  unfold identifySettled
  split <;> rfl

theorem saveSettled_loading (ok : Bool) (cur : Screen) :
    (saveSettled ok cur).1.loading = cur.loading := by
  cases ok <;> rfl

theorem step_identifyTracksLoading (m next : Machine) (a : Action)
    (hinv : IdentifyTracksLoading m) (hstep : step m a = some next) :
    IdentifyTracksLoading next := by
  unfold IdentifyTracksLoading at hinv ⊢
  cases a with
  | tapCapture =>
    simp only [step] at hstep
    split at hstep
    · cases hstep; exact hinv
    · cases hstep
  | captureDone p =>
    simp only [step] at hstep
    split at hstep
    · cases hstep; exact hinv
    · cases hstep
  | captureFailed =>
    simp only [step] at hstep
    split at hstep
    · cases hstep; exact hinv
    · cases hstep
  | pickLanguage code =>
    simp only [step] at hstep
    split at hstep
    · cases hstep; exact hinv
    · cases hstep
  | tapIdentify =>
    simp only [step] at hstep
    split at hstep
    · next hshow =>
      have hl : m.screen.loading = false := by
        simp [Screen.showsIdentify] at hshow
        exact hshow.2.2
      rw [hl] at hinv
      split at hstep
      · cases hstep
        simpa using hinv
      · cases hstep
        simp at hinv
        simp [hinv]
    · cases hstep
  | identifyDone i o =>
    simp only [step] at hstep
    split at hstep
    · cases hstep
    · next r hr =>
      cases hstep
      have hi : i < m.identifying.length := by
        rcases List.get?_eq_some.mp hr with ⟨hlt, _⟩
        exact hlt
      have hone : m.identifying.length = 1 := by
        cases hload : m.screen.loading with
        | true => simpa [hload] using hinv
        | false =>
          rw [hload] at hinv
          simp at hinv
          simp [hinv] at hi
      have hi0 : i = 0 := by omega
      simp [identifySettled_loading, List.length_eraseIdx, hi0, hone]
  | tapRetry =>
    simp only [step] at hstep
    split at hstep
    · cases hstep; exact hinv
    · cases hstep
  | tapSave =>
    simp only [step] at hstep
    split at hstep
    · split at hstep
      · cases hstep; exact hinv
      · cases hstep; exact hinv
    · cases hstep
  | saveDone i ok =>
    simp only [step] at hstep
    split at hstep
    · cases hstep
    · cases hstep
      simpa [saveSettled_loading] using hinv

theorem run_identifyTracksLoading (actions : List Action) (m final : Machine)
    (hinv : IdentifyTracksLoading m) (hrun : run m actions = some final) :
    IdentifyTracksLoading final := by
  induction actions generalizing m with
  | nil =>
    simp only [run, Option.some.injEq] at hrun
    exact hrun ▸ hinv
  | cons a rest ih =>
    simp only [run] at hrun
    split at hrun
    · cases hrun
    · next next hnext => exact ih next (step_identifyTracksLoading m next a hinv hnext) hrun

/-- The identify control is guarded by `loading`: in every state the screen can
reach, at most one inference call is pending. -/
theorem reachable_identifying_le_one (m : Machine) (h : Reachable m) :
    m.identifying.length ≤ 1 := by
  obtain ⟨session, actions, hrun⟩ := h
  have hinv := run_identifyTracksLoading actions (Machine.initial session) m rfl hrun
  unfold IdentifyTracksLoading at hinv
  rw [hinv]
  split <;> simp

/-- Claim C6, the save control.  After a capture and a successful
identification, two presses on Save leave two `addDoc` calls pending at the same
time, and when both are accepted the store holds two documents. -/
theorem double_save_two_writes :
    (run (Machine.initial (some "u1")) doubleSave).map (fun m => m.saving.length) = some 2 ∧
    (run (Machine.initial (some "u1")) (doubleSave ++ [.saveDone 0 true, .saveDone 0 true])).map
      (fun m => m.store.length) = some 2 := by
  constructor <;> rfl

/-! ## Order of the steps -/

/-- A step starts a store write only from a state that has a result. -/
theorem step_write_needs_result (m next : Machine) (a : Action)
    (hstep : step m a = some next) (hgrow : m.saving.length < next.saving.length) :
    m.screen.result.isSome = true := by
  cases a with
  | tapSave =>
    simp only [step] at hstep
    split at hstep
    · next hshow =>
      simp only [Screen.showsResult, Bool.and_eq_true] at hshow
      exact hshow.2
    · cases hstep
  | saveDone i ok =>
    simp only [step] at hstep
    split at hstep
    · cases hstep
    · cases hstep
      simp only [List.length_eraseIdx] at hgrow
      split at hgrow <;> omega
  | identifyDone i o =>
    simp only [step] at hstep
    split at hstep
    · cases hstep
    · cases hstep
      exact absurd hgrow (Nat.lt_irrefl _)
  | tapIdentify =>
    simp only [step] at hstep
    split at hstep
    · split at hstep <;> cases hstep <;> exact absurd hgrow (Nat.lt_irrefl _)
    · cases hstep
  | tapCapture =>
    simp only [step] at hstep
    split at hstep
    · cases hstep; exact absurd hgrow (Nat.lt_irrefl _)
    · cases hstep
  | captureDone p =>
    simp only [step] at hstep
    split at hstep
    · cases hstep; exact absurd hgrow (Nat.lt_irrefl _)
    · cases hstep
  | captureFailed =>
    simp only [step] at hstep
    split at hstep
    · cases hstep; exact absurd hgrow (Nat.lt_irrefl _)
    · cases hstep
  | pickLanguage code =>
    simp only [step] at hstep
    split at hstep
    · cases hstep; exact absurd hgrow (Nat.lt_irrefl _)
    · cases hstep
  | tapRetry =>
    simp only [step] at hstep
    split at hstep
    · cases hstep; exact absurd hgrow (Nat.lt_irrefl _)
    · cases hstep

/-- A result appears on the screen only when an inference call settles with a
body the extraction accepts. -/
theorem step_result_from_identification (m next : Machine) (a : Action)
    (hstep : step m a = some next) (hbefore : m.screen.result = none)
    (hafter : next.screen.result.isSome = true) :
    ∃ i o text, a = .identifyDone i o ∧ identifyText o = .ok text := by
  cases a with
  | identifyDone i o =>
    simp only [step] at hstep
    split at hstep
    · cases hstep
    · cases hstep
      cases ht : identifyText o with
      | ok text => exact ⟨i, o, text, rfl, ht⟩
      | error e => simp [identifySettled, ht, hbefore] at hafter
  | saveDone i ok =>
    simp only [step] at hstep
    split at hstep
    · cases hstep
    · cases hstep
      cases ok <;> simp [saveSettled, retry, hbefore] at hafter
  | tapSave =>
    simp only [step] at hstep
    split at hstep
    · split at hstep <;> cases hstep <;> simp [hbefore] at hafter
    · cases hstep
  | tapIdentify =>
    simp only [step] at hstep
    split at hstep
    · split at hstep <;> cases hstep <;> simp [hbefore] at hafter
    · cases hstep
  | tapCapture =>
    simp only [step] at hstep
    split at hstep
    · cases hstep; simp [hbefore] at hafter
    · cases hstep
  | captureDone p =>
    simp only [step] at hstep
    split at hstep
    · cases hstep; simp at hafter
    · cases hstep
  | captureFailed =>
    simp only [step] at hstep
    split at hstep
    · cases hstep; simp [hbefore] at hafter
    · cases hstep
  | pickLanguage code =>
    simp only [step] at hstep
    split at hstep
    · cases hstep; simp [hbefore] at hafter
    · cases hstep
  | tapRetry =>
    simp only [step] at hstep
    split at hstep
    · cases hstep; simp [retry] at hafter
    · cases hstep

/-- A press on Identify followed by the settling of the call is one whole run of
`identifyDisease`. -/
theorem run_identify_eq (m : Machine) (net : Request → FetchOutcome) (p : Photo)
    (hphoto : m.screen.photo = some p) (hresult : m.screen.result = none)
    (hloading : m.screen.loading = false) (hidle : m.identifying = []) :
    (run m [.tapIdentify, .identifyDone 0 (net (buildRequest p m.screen.language))]).map
        (fun n => n.screen)
      = some (identifyDisease net m.screen).1 := by
  simp [run, step, Screen.showsIdentify, identifyRequest, identifyDisease, hphoto, hresult,
    hloading, hidle]

/-- A press on Save followed by the settling of the write is one whole run of
`saveToHistory`. -/
theorem run_save_eq (m : Machine) (store : List (String × JsVal) → Bool)
    (doc : List (String × JsVal)) (hshow : m.screen.showsResult = true)
    (hdoc : historyDoc m.session m.screen.result m.screen.language = .ok doc)
    (hidle : m.saving = []) :
    (run m [.tapSave, .saveDone 0 (store doc)]).map (fun n => n.screen)
      = some (saveToHistory m.session store m.screen).1 := by
  simp [run, step, saveToHistory, hshow, hdoc, hidle]

/-! ## identifyDisease: the HTTP status -/

/-- Claim C11, refuted as stated.  A response with status 500 whose body decodes
to an error object sets a result, with the sentinel summary: the identification
does not fail. -/
theorem identifyDisease_status_counterexample :
    (identifyDisease (fun _ => .response 500 (some errorBody)) capturedScreen).1.result.map
      Diagnosis.summary = some (.str "No result") := by
  rw [identifyDisease_result _ capturedScreen samplePhoto 500 errorBody rfl rfl rfl]
  simp [errorBody, follow, textPath, member, ownField, JsVal.orElse, JsVal.truthy]

/-- Claim C11, amended.  `identifyDisease` never reads the HTTP status: two
responses that differ only in their status leave the same screen.  A response
whose body cannot be decoded is a failed identification (the result stays null);
a response whose body decodes to a value other than `null` sets a result,
whatever its status. -/
theorem identifyDisease_ignores_status (net₁ net₂ : Request → FetchOutcome) (s : Screen)
    (p : Photo) (status₁ status₂ : Nat) (decoded : Option JsVal)
    (hphoto : s.photo = some p)
    (h₁ : net₁ (buildRequest p s.language) = .response status₁ decoded)
    (h₂ : net₂ (buildRequest p s.language) = .response status₂ decoded) :
    (identifyDisease net₁ s).1 = (identifyDisease net₂ s).1 ∧
    (decoded = none → s.result = none → (identifyDisease net₁ s).1.result = none) ∧
    (∀ data, decoded = some data → data.isNullish = false →
      (identifyDisease net₁ s).1.result.isSome = true) := by
  refine ⟨?_, ?_, ?_⟩
  · rw [identifyDisease_screen net₁ s p hphoto, identifyDisease_screen net₂ s p hphoto, h₁, h₂]
    cases decoded <;> rfl
  · intro hd hr
    subst hd
    exact (identifyDisease_failure net₁ s p hphoto hr (Or.inr ⟨status₁, h₁⟩)).1
  · intro data hd hn
    subst hd
    rw [identifyDisease_result net₁ s p status₁ data hphoto hn h₁]
    rfl

/-- The same error body under status 500 and under status 200. -/
theorem identifyDisease_ignores_status_witness :
    (identifyDisease (fun _ => .response 500 (some errorBody)) capturedScreen).1
      = (identifyDisease (fun _ => .response 200 (some errorBody)) capturedScreen).1 ∧
    (some errorBody = none → capturedScreen.result = none →
      (identifyDisease (fun _ => .response 500 (some errorBody)) capturedScreen).1.result
        = none) ∧
    (∀ data, some errorBody = some data → data.isNullish = false →
      (identifyDisease (fun _ => .response 500 (some errorBody)) capturedScreen).1.result.isSome
        = true) :=
  identifyDisease_ignores_status (fun _ => .response 500 (some errorBody))
    (fun _ => .response 200 (some errorBody)) capturedScreen samplePhoto 500 200
    (some errorBody) rfl rfl rfl

/-! ## The handlers never throw -/

theorem identifyDiseaseBlocks_eq (net : Request → FetchOutcome) (s : Screen) :
    (identifyDiseaseBlocks net s).screen = (identifyDisease net s).1 ∧
    (identifyDiseaseBlocks net s).effects = (identifyDisease net s).2 := by
  cases hreq : identifyRequest s.photo s.language with
  | error e =>
    simp [identifyDiseaseBlocks, tryCatchFinally, identifyTryBlock, identifyDisease,
      identifyCatchBlock, identifyFinallyBlock, hreq]
  | ok req =>
    cases htext : identifyText (net req) <;>
      simp [identifyDiseaseBlocks, tryCatchFinally, identifyTryBlock, identifyDisease,
        identifySettled, identifyCatchBlock, identifyFinallyBlock, hreq, htext]

theorem saveToHistoryBlocks_eq (session : Option String)
    (store : List (String × JsVal) → Bool) (s : Screen) :
    (saveToHistoryBlocks session store s).screen = (saveToHistory session store s).1 ∧
    (saveToHistoryBlocks session store s).effects = (saveToHistory session store s).2 := by
  cases hdoc : historyDoc session s.result s.language with
  | error e =>
    simp [saveToHistoryBlocks, tryCatchFinally, saveTryBlock, saveToHistory, saveCatchBlock,
      hdoc]
  | ok doc =>
    cases hs : store doc <;>
      simp [saveToHistoryBlocks, tryCatchFinally, saveTryBlock, saveToHistory, saveSettled,
        saveCatchBlock, hdoc, hs]

/-- Claim C12.  Neither `identifyDisease` nor `saveToHistory` lets an exception
out: whatever the photo, the result, the session, the network and the store do,
the body of each handler, run block by block, completes normally, and whenever
its `try` block throws, the effects of that same run hold the notice of the
`catch` block.  The block-by-block run leaves the screen and the effects of the
whole-run functions `identifyDisease` and `saveToHistory`. -/
theorem handlers_never_throw (net : Request → FetchOutcome) (session : Option String)
    (store : List (String × JsVal) → Bool) (s : Screen) :
    ((identifyDiseaseBlocks net s).thrown = none ∧
      ((identifyTryBlock net s).thrown.isSome = true →
        Effect.alert "Failed to identify disease" ∈ (identifyDiseaseBlocks net s).effects) ∧
      (identifyDiseaseBlocks net s).screen = (identifyDisease net s).1 ∧
      (identifyDiseaseBlocks net s).effects = (identifyDisease net s).2) ∧
    ((saveToHistoryBlocks session store s).thrown = none ∧
      ((saveTryBlock session store s).thrown.isSome = true →
        Effect.alert "Save failed" ∈ (saveToHistoryBlocks session store s).effects) ∧
      (saveToHistoryBlocks session store s).screen = (saveToHistory session store s).1 ∧
      (saveToHistoryBlocks session store s).effects = (saveToHistory session store s).2) := by
  refine ⟨⟨?_, ?_, (identifyDiseaseBlocks_eq net s).1, (identifyDiseaseBlocks_eq net s).2⟩,
    ⟨?_, ?_, (saveToHistoryBlocks_eq session store s).1,
      (saveToHistoryBlocks_eq session store s).2⟩⟩
  · cases hreq : identifyRequest s.photo s.language with
    | error e =>
      simp [identifyDiseaseBlocks, tryCatchFinally, identifyTryBlock, identifyCatchBlock,
        identifyFinallyBlock, hreq]
    | ok req =>
      cases htext : identifyText (net req) <;>
        simp [identifyDiseaseBlocks, tryCatchFinally, identifyTryBlock, identifyCatchBlock,
          identifyFinallyBlock, hreq, htext]
  · cases hreq : identifyRequest s.photo s.language with
    | error e =>
      simp [identifyDiseaseBlocks, tryCatchFinally, identifyTryBlock, identifyCatchBlock,
        identifyFinallyBlock, hreq]
    | ok req =>
      cases htext : identifyText (net req) <;>
        simp [identifyDiseaseBlocks, tryCatchFinally, identifyTryBlock, identifyCatchBlock,
          identifyFinallyBlock, hreq, htext]
  · cases hdoc : historyDoc session s.result s.language with
    | error e =>
      simp [saveToHistoryBlocks, tryCatchFinally, saveTryBlock, saveCatchBlock, hdoc]
    | ok doc =>
      cases hs : store doc <;>
        simp [saveToHistoryBlocks, tryCatchFinally, saveTryBlock, saveCatchBlock, hdoc, hs]
  · cases hdoc : historyDoc session s.result s.language with
    | error e =>
      simp [saveToHistoryBlocks, tryCatchFinally, saveTryBlock, saveCatchBlock, hdoc]
    | ok doc =>
      cases hs : store doc <;>
        simp [saveToHistoryBlocks, tryCatchFinally, saveTryBlock, saveCatchBlock, hdoc, hs]

/-- A photo, a result and a session, with a network that rejects and a store
that rejects: `fetch` and `addDoc` are both called, both `try` blocks throw, and
both runs end normally with their notice among their own effects. -/
theorem handlers_never_throw_witness :
    (fetches (identifyDiseaseBlocks (fun _ => .rejects) resultedScreen).effects
        = [buildRequest samplePhoto "en"] ∧
      (identifyTryBlock (fun _ => .rejects) resultedScreen).thrown = some .rejected ∧
      (identifyDiseaseBlocks (fun _ => .rejects) resultedScreen).thrown = none ∧
      Effect.alert "Failed to identify disease"
        ∈ (identifyDiseaseBlocks (fun _ => .rejects) resultedScreen).effects) ∧
    ((writes (saveToHistoryBlocks (some "u1") failingStore resultedScreen).effects).length = 1 ∧
      (saveTryBlock (some "u1") failingStore resultedScreen).thrown = some .rejected ∧
      (saveToHistoryBlocks (some "u1") failingStore resultedScreen).thrown = none ∧
      Effect.alert "Save failed"
        ∈ (saveToHistoryBlocks (some "u1") failingStore resultedScreen).effects) :=
  have h := handlers_never_throw (fun _ => .rejects) (some "u1") failingStore resultedScreen
  ⟨⟨rfl, rfl, h.1.1, h.1.2.1 rfl⟩, ⟨rfl, rfl, h.2.1, h.2.2.1 rfl⟩⟩

/-! ## takePhoto -/

/-- The capture button is rendered only while there is no photo. -/
theorem tapCapture_needs_no_photo (m next : Machine) (h : step m .tapCapture = some next) :
    m.screen.photo = none := by
  simp only [step] at h
  split at h
  · next hshow => simpa [Screen.showsCamera] using hshow
  · cases h

/-- Claim C13, the second press.  Two presses on the capture button leave two
`takePictureAsync` calls pending; and when the second picture arrives after the
first one has been identified, it replaces the photo and clears the result. -/
theorem double_capture_two_frames :
    (run (Machine.initial none) doubleCapture).map (fun m => m.capturing) = some 2 ∧
    (run (Machine.initial none) lateSecondCapture).map
      (fun m => (m.screen.photo, m.screen.result.isSome)) = some (some secondPhoto, false) := by
  constructor <;> rfl

/-! ## The language picker -/

/-- Claim C14, refuted as stated.  The language changes while an identification
is in flight (loading is true and one call is pending), and while a save is in
flight. -/
theorem language_changes_in_flight :
    (run (Machine.initial (some "u1")) pickWhileIdentifying).map
      (fun m => (m.screen.loading, m.identifying.length, m.screen.language))
      = some (true, 1, "si") ∧
    (run (Machine.initial (some "u1")) pickWhileSaving).map
      (fun m => (m.saving.length, m.screen.language)) = some (1, "ta") := by
  constructor <;> rfl

/-- Claim C14, amended.  The language can change only while a photo is present:
a step that changes the language is a choice in the picker, which is rendered
only when there is a photo; with no photo no enabled action changes it. -/
theorem language_changes_only_with_photo (m next : Machine) (a : Action)
    (hstep : step m a = some next) (hchange : next.screen.language ≠ m.screen.language) :
    m.screen.photo.isSome = true ∧ ∃ code, a = .pickLanguage code ∧ code ∈ languageCodes := by
  cases a with
  | pickLanguage code =>
    simp only [step] at hstep
    split at hstep
    · next hshow =>
      simp only [Screen.showsPicker, Bool.and_eq_true] at hshow
      exact ⟨hshow.1, code, rfl, by simpa using hshow.2⟩
    · cases hstep
  | tapCapture =>
    simp only [step] at hstep
    split at hstep
    · cases hstep; exact absurd rfl hchange
    · cases hstep
  | captureDone p =>
    simp only [step] at hstep
    split at hstep
    · cases hstep; exact absurd rfl hchange
    · cases hstep
  | captureFailed =>
    simp only [step] at hstep
    split at hstep
    · cases hstep; exact absurd rfl hchange
    · cases hstep
  | tapIdentify =>
    simp only [step] at hstep
    split at hstep
    · split at hstep <;> cases hstep <;> exact absurd rfl hchange
    · cases hstep
  | identifyDone i o =>
    simp only [step] at hstep
    split at hstep
    · cases hstep
    · cases hstep
      exfalso
      apply hchange
      unfold identifySettled
      split <;> rfl
  | tapRetry =>
    simp only [step] at hstep
    split at hstep
    · cases hstep; exact absurd rfl hchange
    · cases hstep
  | tapSave =>
    simp only [step] at hstep
    split at hstep
    · split at hstep <;> cases hstep <;> exact absurd rfl hchange
    · cases hstep
  | saveDone i ok =>
    simp only [step] at hstep
    split at hstep
    · cases hstep
    · cases hstep
      exfalso
      apply hchange
      cases ok <;> rfl

/-- Choosing Sinhala in the Captured state. -/
theorem language_changes_only_with_photo_witness :
    capturedMachine.screen.photo.isSome = true ∧
    ∃ code, Action.pickLanguage "si" = .pickLanguage code ∧ code ∈ languageCodes :=
  language_changes_only_with_photo capturedMachine
    { capturedMachine with screen := { capturedScreen with language := "si" } }
    (.pickLanguage "si") rfl (by decide)

/-! ## identifyDisease: the request -/

theorem fetches_identifySettled (o : FetchOutcome) (cur : Screen) :
    fetches (identifySettled o cur).2 = [] := by
  unfold identifySettled
  split <;> rfl

/-- Claim C15.  For every photo and every selected language, `identifyDisease`
sends exactly one request; it is a POST whose body holds a single message with
two parts, in this order: the instruction text ending in the selected language
code, and the inline image of MIME type `image/jpeg` with the base64 payload of
the photo. -/
theorem identifyDisease_request (net : Request → FetchOutcome) (s : Screen) (p : Photo)
    (hphoto : s.photo = some p) :
    ∃ req, fetches (identifyDisease net s).2 = [req] ∧ req.method = "POST" ∧
      req.body = .obj [("contents", .arr [.obj [("parts", .arr [
        .obj [("text", .str ("Identify the plant disease and give summary and treatment in "
          ++ s.language))],
        .obj [("inlineData", .obj [("mimeType", .str "image/jpeg"),
          ("data", .str p.base64)])]])]])] := by
  refine ⟨buildRequest p s.language, ?_, rfl, rfl⟩
  simp [identifyDisease, identifyRequest, hphoto, fetches, fetches_identifySettled]

/-- The request for the sample photo with the language `en`. -/
theorem identifyDisease_request_witness :
    ∃ req, fetches (identifyDisease (fun _ => .rejects) capturedScreen).2 = [req] ∧
      req.method = "POST" ∧
      req.body = .obj [("contents", .arr [.obj [("parts", .arr [
        .obj [("text", .str ("Identify the plant disease and give summary and treatment in "
          ++ capturedScreen.language))],
        .obj [("inlineData", .obj [("mimeType", .str "image/jpeg"),
          ("data", .str samplePhoto.base64)])]])]])] :=
  identifyDisease_request (fun _ => .rejects) capturedScreen samplePhoto rfl

/-! ## retry -/

/-- Claim C16.  `retry` sets photo and result to null and leaves language and
loading as they were. -/
theorem retry_frame (s : Screen) :
    (retry s).photo = none ∧ (retry s).result = none ∧
    (retry s).language = s.language ∧ (retry s).loading = s.loading :=
  ⟨rfl, rfl, rfl, rfl⟩

/-- A press on Retry runs `retry` on the screen and touches nothing else: no
call is started, none is dropped, nothing is written. -/
theorem step_tapRetry (m next : Machine) (h : step m .tapRetry = some next) :
    next = { m with screen := retry m.screen } := by
  simp only [step] at h
  split at h
  · cases h; rfl
  · cases h

/-! ## identifyDisease: the placeholders -/

/-- Claim C17.  Whenever `identifyDisease` sets a result, its disease label is
`"Detected Disease"` and its treatment is `"See details above"`, whatever the
response contains. -/
theorem identifyDisease_placeholders (net : Request → FetchOutcome) (s : Screen)
    (r : Diagnosis) (hbefore : s.result = none)
    (hset : (identifyDisease net s).1.result = some r) :
    r.disease = "Detected Disease" ∧ r.treatment = "See details above" := by
  cases hp : s.photo with
  | none => simp [identifyDisease, identifyRequest, hp, hbefore] at hset
  | some p =>
    rw [identifyDisease_screen net s p hp] at hset
    unfold identifySettled at hset
    split at hset
    · simp only [Option.some.injEq] at hset
      subst hset
      exact ⟨rfl, rfl⟩
    · simp [hbefore] at hset

/-- A well-formed response and an error response give the same placeholders. -/
theorem identifyDisease_placeholders_witness :
    sampleDiagnosis.disease = "Detected Disease" ∧
    sampleDiagnosis.treatment = "See details above" :=
  identifyDisease_placeholders (answering (bodyWithText (.str "Leaf rust"))) capturedScreen
    sampleDiagnosis rfl (by
      rw [identifyDisease_result _ capturedScreen samplePhoto 200
        (bodyWithText (.str "Leaf rust")) rfl rfl rfl]
      simp [sampleDiagnosis, bodyWithText, follow, textPath, member, ownField, JsVal.orElse,
        JsVal.truthy])

/-! ## saveToHistory: the document -/

/-- Claim C18.  For every result and language, `saveToHistory` hands exactly one
document to the store, with exactly the fields `userId`, `disease`, `summary`,
`treatment`, `language` and `createdAt`: disease, summary and treatment are
those of the current result, and `createdAt` is the `serverTimestamp()` marker. -/
theorem saveToHistory_document (uid : String) (store : List (String × JsVal) → Bool)
    (s : Screen) (r : Diagnosis) (hresult : s.result = some r) :
    writes (saveToHistory (some uid) store s).2
      = [[("userId", .str uid), ("disease", .str r.disease), ("summary", r.summary),
          ("treatment", .str r.treatment), ("language", .str s.language),
          ("createdAt", .serverTimestamp)]] := by
  rw [saveToHistory_writes, hresult]
  rfl

/-- The document written from the Resulted state under the session `u1`. -/
theorem saveToHistory_document_witness :
    writes (saveToHistory (some "u1") failingStore resultedScreen).2
      = [[("userId", .str "u1"), ("disease", .str "Detected Disease"),
          ("summary", .str "Leaf rust"), ("treatment", .str "See details above"),
          ("language", .str "en"), ("createdAt", .serverTimestamp)]] :=
  saveToHistory_document "u1" failingStore resultedScreen sampleDiagnosis rfl

/-! ## filterArticles -/

/-- The substring search finds exactly the substrings. -/
theorem includesChars_iff (hay needle : List Char) :
    includesChars hay needle = true ↔ needle <:+: hay := by
  induction hay with
  | nil => simp [includesChars]
  | cons c rest ih =>
    simp only [includesChars, Bool.or_eq_true, List.isPrefixOf_iff_prefix, ih]
    exact List.infix_cons_iff.symm

/-- What `trim` leaves is empty exactly for a blank string. -/
theorem trim_eq_empty_iff (s : String) : trim s = "" ↔ isBlank s = true := by
  have hkey : ∀ l : List Char,
      (List.dropWhile isWhiteSpace (List.dropWhile isWhiteSpace l).reverse = [] ↔
        ∀ x ∈ l, isWhiteSpace x = true) := by
    intro l
    rw [List.dropWhile_eq_nil_iff]
    constructor
    · intro h
      have h2 : ∀ x ∈ List.dropWhile isWhiteSpace l, isWhiteSpace x = true :=
        fun x hx => h x (List.mem_reverse.mpr hx)
      have h3 := List.dropWhile_eq_nil_iff.mpr h2
      rw [List.dropWhile_idempotent] at h3
      exact List.dropWhile_eq_nil_iff.mp h3
    · intro h x hx
      rw [List.dropWhile_eq_nil_iff.mpr h] at hx
      simp at hx
  rw [String.ext_iff]
  simp only [trim, isBlank, List.all_eq_true]
  rw [← hkey s.data]
  exact List.reverse_eq_nil_iff

theorem arrayFilter_eq_filter {α : Type} (callback : α → Except JsError JsVal)
    (keep : α → Bool) (l : List α)
    (h : ∀ a ∈ l, ∃ v, callback a = .ok v ∧ v.truthy = keep a) :
    arrayFilter callback l = .ok (l.filter keep) := by
  induction l with
  | nil => rfl
  | cons a rest ih =>
    obtain ⟨v, hv, hk⟩ := h a (List.mem_cons_self a rest)
    have hrest := ih fun b hb => h b (List.mem_cons_of_mem a hb)
    simp only [arrayFilter, hv, hrest, hk, List.filter_cons]

theorem categoryCallback_typed (toLowerCase : String → String) (selectedCategory : String)
    (article : Article) (h : isText (readField article "category") = true) :
    ∃ v, categoryCallback toLowerCase selectedCategory article = .ok v ∧
      v.truthy = hasCategory toLowerCase selectedCategory article := by
  unfold categoryCallback hasCategory
  cases hc : readField article "category" with
  | str s =>
    by_cases hs : s = ""
    · exact ⟨.str s, by simp [JsVal.truthy, hs], by simp [JsVal.truthy, hs]⟩
    · exact ⟨.bool (toLowerCase s == toLowerCase selectedCategory),
        by simp [JsVal.truthy, hs, callToLowerCase], by simp [JsVal.truthy, hs]⟩
  | undefined => exact ⟨.undefined, rfl, rfl⟩
  | null => exact ⟨.null, rfl, rfl⟩
  | bool b => simp [hc, isText] at h
  | num n => simp [hc, isText] at h
  | arr items => simp [hc, isText] at h
  | obj fields => simp [hc, isText] at h
  | timestamp millis => simp [hc, isText] at h
  | serverTimestamp => simp [hc, isText] at h

theorem searchTerm_typed (toLowerCase : String → String) (searchQuery : String)
    (article : Article) (key : String) (h : isText (readField article key) = true) :
    ∃ v, searchTerm toLowerCase searchQuery (readField article key) = .ok v ∧
      v.truthy = fieldContains toLowerCase searchQuery article key := by
  unfold searchTerm fieldContains
  cases hc : readField article key with
  | str s =>
    refine ⟨.bool (includes (toLowerCase s) (toLowerCase searchQuery)), rfl, ?_⟩
    simp only [JsVal.truthy, includes]
    rw [Bool.eq_iff_iff, includesChars_iff, decide_eq_true_iff]
  | undefined => exact ⟨.undefined, rfl, rfl⟩
  | null => exact ⟨.undefined, rfl, rfl⟩
  | bool b => simp [hc, isText] at h
  | num n => simp [hc, isText] at h
  | arr items => simp [hc, isText] at h
  | obj fields => simp [hc, isText] at h
  | timestamp millis => simp [hc, isText] at h
  | serverTimestamp => simp [hc, isText] at h

theorem searchCallback_typed (toLowerCase : String → String) (searchQuery : String)
    (article : Article) (h : textFieldsTyped article = true) :
    ∃ v, searchCallback toLowerCase searchQuery article = .ok v ∧
      v.truthy = queryOccurs toLowerCase searchQuery article := by
  simp only [textFieldsTyped, Bool.and_eq_true] at h
  obtain ⟨v₁, e₁, t₁⟩ := searchTerm_typed toLowerCase searchQuery article "title" h.1
  obtain ⟨v₂, e₂, t₂⟩ := searchTerm_typed toLowerCase searchQuery article "summary" h.2.1
  obtain ⟨v₃, e₃, t₃⟩ := searchTerm_typed toLowerCase searchQuery article "category" h.2.2
  unfold searchCallback queryOccurs
  rw [e₁, e₂, e₃, ← t₁, ← t₂, ← t₃]
  cases h₁ : v₁.truthy with
  | true => exact ⟨v₁, by simp [h₁], by simp [h₁]⟩
  | false =>
    cases h₂ : v₂.truthy with
    | true => exact ⟨v₂, by simp [h₁, h₂], by simp [h₂]⟩
    | false => exact ⟨v₃, by simp [h₁, h₂], by simp⟩

/-- The category stage of `filterArticles` followed by its search stage. -/
theorem filterArticles_stages (toLowerCase : String → String) (articles : List Article)
    (searchQuery selectedCategory : String)
    (htyped : ∀ a ∈ articles, isText (readField a "category") = true) :
    filterArticles toLowerCase articles searchQuery selectedCategory
      = if trim searchQuery ≠ "" then
          arrayFilter (searchCallback toLowerCase searchQuery)
            (categoryView toLowerCase selectedCategory articles)
        else .ok (categoryView toLowerCase selectedCategory articles) := by
  unfold filterArticles categoryView
  by_cases hall : selectedCategory = "All"
  · simp [hall]
  · have hstage := arrayFilter_eq_filter (categoryCallback toLowerCase selectedCategory)
      (hasCategory toLowerCase selectedCategory) articles
      (fun a ha => categoryCallback_typed toLowerCase selectedCategory a (htyped a ha))
    simp [hall, hstage]

/-- Claim C19, refuted as stated.  On the collection of one article whose title
is the number 5, with the query `x` under the category `All`, the search callback
calls `toLowerCase` on the number and throws: `filterArticles` produces no output
at all.  The same happens when the query does occur in the category of that
article, so the article passes the category filter, matches the query, and is in
no output. -/
theorem filterArticles_search_counterexample :
    isBlank "x" = false ∧
    filterArticles asciiLowerCase [[("title", .num 5)]] "x" "All" = .error .typeError ∧
    queryOccurs asciiLowerCase "x" [("title", .num 5), ("category", .str "Xylem")] = true ∧
    filterArticles asciiLowerCase [[("title", .num 5), ("category", .str "Xylem")]] "x" "All"
      = .error .typeError :=
  ⟨rfl, rfl, rfl, rfl⟩

/-- Claim C19, amended.  For a collection whose articles hold a string in each
of title, summary and category where the field is present, and a query that is
not blank, the output of `filterArticles` is the list of the articles that pass
the category filter and in whose title, summary or category the query occurs as
a substring ignoring letter case, in their original order; an article that lacks
all three fields is not in it. -/
theorem filterArticles_search (toLowerCase : String → String) (articles : List Article)
    (searchQuery selectedCategory : String)
    (htyped : ∀ a ∈ articles, textFieldsTyped a = true)
    (hquery : isBlank searchQuery = false) :
    filterArticles toLowerCase articles searchQuery selectedCategory
      = .ok ((categoryView toLowerCase selectedCategory articles).filter
          (queryOccurs toLowerCase searchQuery)) ∧
    (∀ a, (readField a "title").isNullish = true → (readField a "summary").isNullish = true →
      (readField a "category").isNullish = true →
      a ∉ (categoryView toLowerCase selectedCategory articles).filter
        (queryOccurs toLowerCase searchQuery)) := by
  have hcat : ∀ a ∈ articles, isText (readField a "category") = true := by
    intro a ha
    have h := htyped a ha
    simp only [textFieldsTyped, Bool.and_eq_true] at h
    exact h.2.2
  have hsub : ∀ a ∈ categoryView toLowerCase selectedCategory articles, a ∈ articles := by
    intro a ha
    unfold categoryView at ha
    split at ha
    · exact ha
    · exact (List.mem_filter.mp ha).1
  have htrim : trim searchQuery ≠ "" := by
    intro h
    rw [trim_eq_empty_iff, hquery] at h
    cases h
  constructor
  · rw [filterArticles_stages toLowerCase articles searchQuery selectedCategory hcat,
      if_pos htrim]
    exact arrayFilter_eq_filter _ _ _
      (fun a ha => searchCallback_typed toLowerCase searchQuery a (htyped a (hsub a ha)))
  · intro a h₁ h₂ h₃ hmem
    have hocc := (List.mem_filter.mp hmem).2
    have hno : ∀ key, (readField a key).isNullish = true →
        fieldContains toLowerCase searchQuery a key = false := by
      intro key hk
      unfold fieldContains
      cases hv : readField a key <;> first | rfl | simp [hv, JsVal.isNullish] at hk
    simp [queryOccurs, hno _ h₁, hno _ h₂, hno _ h₃] at hocc

/-- Scenario 1 of the specification: the query `diseases` under the category
`All` keeps the article on leaf spot and drops the one on watering. -/
theorem filterArticles_search_witness :
    filterArticles asciiLowerCase scenarioArticles "diseases" "All"
      = .ok [[("title", .str "Leaf Spot"), ("category", .str "Diseases")]] :=
  (filterArticles_search asciiLowerCase scenarioArticles "diseases" "All"
    (by
      intro a ha
      simp only [scenarioArticles, List.mem_cons, List.mem_singleton, List.not_mem_nil,
        or_false] at ha
      rcases ha with rfl | rfl <;> rfl)
    rfl).1.trans rfl

/-- Claim C20, refuted as stated.  On the collection of one article whose
category is the number 5, with an empty query under the category `Diseases`, the
category callback calls `toLowerCase` on the number and throws: `filterArticles`
produces no output, so the output is not the stated sub-list. -/
theorem filterArticles_category_counterexample :
    isBlank "" = true ∧
    filterArticles asciiLowerCase [[("category", .num 5)]] "" "Diseases" = .error .typeError :=
  ⟨rfl, rfl⟩

/-- Claim C20, amended.  With a blank query, `filterArticles` returns the whole
collection unchanged when the selected category is `All`, whatever the articles
hold; for any other selected category, when the category of every article is a
string where it is present, it returns the sub-list, in the original order, of
the articles that have a category equal to the selected one ignoring letter
case. -/
theorem filterArticles_category (toLowerCase : String → String) (articles : List Article)
    (searchQuery selectedCategory : String)
    (hblank : isBlank searchQuery = true) :
    (selectedCategory = "All" →
      filterArticles toLowerCase articles searchQuery selectedCategory = .ok articles) ∧
    (selectedCategory ≠ "All" →
      (∀ a ∈ articles, isText (readField a "category") = true) →
      filterArticles toLowerCase articles searchQuery selectedCategory
        = .ok (articles.filter (hasCategory toLowerCase selectedCategory))) := by
  have htrim : trim searchQuery = "" := by
    rw [trim_eq_empty_iff]
    exact hblank
  constructor
  · intro hall
    simp [filterArticles, hall, htrim]
  · intro hall htyped
    rw [filterArticles_stages toLowerCase articles searchQuery selectedCategory htyped,
      if_neg (not_not.mpr htrim)]
    simp [categoryView, hall]

/-- The articles of Scenario 1 under a query of two spaces: everything for the
category `All`, the article on watering for the category `watering`. -/
theorem filterArticles_category_witness :
    filterArticles asciiLowerCase scenarioArticles "  " "All" = .ok scenarioArticles ∧
    filterArticles asciiLowerCase scenarioArticles "  " "watering"
      = .ok [[("title", .str "Watering Tips"), ("category", .str "Watering")]] :=
  have htyped : ∀ a ∈ scenarioArticles, isText (readField a "category") = true := by
    intro a ha
    simp only [scenarioArticles, List.mem_cons, List.mem_singleton, List.not_mem_nil,
      or_false] at ha
    rcases ha with rfl | rfl <;> rfl
  ⟨(filterArticles_category asciiLowerCase scenarioArticles "  " "All" rfl).1 rfl,
   ((filterArticles_category asciiLowerCase scenarioArticles "  " "watering" rfl).2
      (by decide) htyped).trans rfl⟩

/-! ## The order of the article view -/

theorem createdDate_eq_createdMillis (a : Article) (v : Int) (h : createdDate a = .ok v) :
    v = createdMillis a := by
  unfold createdDate at h
  unfold createdMillis
  cases hc : readField a "createdAt" <;> simp [hc] at h ⊢ <;> exact h.symm

theorem compareCreated_eq (a b : Article) (order : Int) (h : compareCreated a b = .ok order) :
    order = createdMillis b - createdMillis a := by
  unfold compareCreated at h
  cases ha : createdDate a with
  | error e => simp [ha] at h
  | ok dateA =>
    cases hb : createdDate b with
    | error e => simp [ha, hb] at h
    | ok dateB =>
      simp only [ha, hb, Except.ok.injEq] at h
      rw [← h, createdDate_eq_createdMillis a dateA ha, createdDate_eq_createdMillis b dateB hb]

theorem sortedInsert_perm {α : Type} (compare : α → α → Except JsError Int) (a : α)
    (l s : List α) (h : sortedInsert compare a l = .ok s) : s.Perm (a :: l) := by
  induction l generalizing s with
  | nil =>
    simp only [sortedInsert, Except.ok.injEq] at h
    rw [← h]
  | cons b rest ih =>
    simp only [sortedInsert] at h
    cases hc : compare a b with
    | error e => simp [hc] at h
    | ok order =>
      simp only [hc] at h
      by_cases ho : order ≤ 0
      · simp only [ho, if_true, Except.ok.injEq] at h
        rw [← h]
      · simp only [ho, if_false] at h
        cases hi : sortedInsert compare a rest with
        | error e => simp [hi] at h
        | ok inserted =>
          simp only [hi, Except.ok.injEq] at h
          rw [← h]
          exact ((ih inserted hi).cons b).trans (List.Perm.swap a b rest)

theorem sortedInsert_newestFirst (a : Article) (l s : List Article) (hl : NewestFirst l)
    (h : sortedInsert compareCreated a l = .ok s) : NewestFirst s := by
  induction l generalizing s with
  | nil =>
    simp only [sortedInsert, Except.ok.injEq] at h
    rw [← h]
    exact List.pairwise_singleton _ _
  | cons b rest ih =>
    simp only [sortedInsert] at h
    cases hc : compareCreated a b with
    | error e => simp [hc] at h
    | ok order =>
      have horder := compareCreated_eq a b order hc
      simp only [hc] at h
      have hb := List.pairwise_cons.mp hl
      by_cases ho : order ≤ 0
      · simp only [ho, if_true, Except.ok.injEq] at h
        rw [← h]
        refine List.pairwise_cons.mpr ⟨?_, hl⟩
        intro x hx
        rcases List.mem_cons.mp hx with rfl | hx
        · omega
        · have := hb.1 x hx
          omega
      · simp only [ho, if_false] at h
        cases hi : sortedInsert compareCreated a rest with
        | error e => simp [hi] at h
        | ok inserted =>
          simp only [hi, Except.ok.injEq] at h
          rw [← h]
          refine List.pairwise_cons.mpr ⟨?_, ih inserted hb.2 hi⟩
          intro x hx
          have hx2 := (sortedInsert_perm compareCreated a rest inserted hi).mem_iff.mp hx
          rcases List.mem_cons.mp hx2 with rfl | hx2
          · omega
          · exact hb.1 x hx2

theorem arraySort_newestFirst (l s : List Article) (h : arraySort compareCreated l = .ok s) :
    NewestFirst s := by
  induction l generalizing s with
  | nil =>
    simp only [arraySort, Except.ok.injEq] at h
    rw [← h]
    exact List.Pairwise.nil
  | cons a rest ih =>
    simp only [arraySort] at h
    cases hr : arraySort compareCreated rest with
    | error e => simp [hr] at h
    | ok sorted =>
      simp only [hr] at h
      exact sortedInsert_newestFirst a sorted s (ih sorted hr) h

theorem arraySort_perm {α : Type} (compare : α → α → Except JsError Int) (l s : List α)
    (h : arraySort compare l = .ok s) : s.Perm l := by
  induction l generalizing s with
  | nil =>
    simp only [arraySort, Except.ok.injEq] at h
    rw [← h]
  | cons a rest ih =>
    simp only [arraySort] at h
    cases hr : arraySort compare rest with
    | error e => simp [hr] at h
    | ok sorted =>
      simp only [hr] at h
      exact (sortedInsert_perm compare a sorted s h).trans ((ih sorted hr).cons a)

/-- The sort in `fetchArticles` leaves the state cell `articles` ordered most
recent first, whatever the snapshot holds. -/
theorem fetchArticles_newestFirst (snapshot : Option (List StoredDoc)) (articles : List Article)
    (h : NewestFirst articles) : NewestFirst (fetchArticles snapshot articles) := by
  unfold fetchArticles
  split
  · exact h
  · exact List.Pairwise.nil
  · split
    · exact h
    · next sorted hs => exact arraySort_newestFirst _ sorted hs

theorem arrayFilter_sublist {α : Type} (callback : α → Except JsError JsVal) (l out : List α)
    (h : arrayFilter callback l = .ok out) : out.Sublist l := by
  induction l generalizing out with
  | nil =>
    simp only [arrayFilter, Except.ok.injEq] at h
    rw [← h]
  | cons a rest ih =>
    simp only [arrayFilter] at h
    cases hc : callback a with
    | error e => simp [hc] at h
    | ok keep =>
      cases hr : arrayFilter callback rest with
      | error e => simp [hc, hr] at h
      | ok kept =>
        simp only [hc, hr, Except.ok.injEq] at h
        rw [← h]
        split
        · exact (ih kept hr).cons₂ a
        · exact (ih kept hr).cons a

/-- Filtering only drops articles: the view is a sub-list of the collection, in
its order. -/
theorem filterArticles_sublist (toLowerCase : String → String) (articles view : List Article)
    (searchQuery selectedCategory : String)
    (h : filterArticles toLowerCase articles searchQuery selectedCategory = .ok view) :
    view.Sublist articles := by
  unfold filterArticles at h
  by_cases hall : selectedCategory = "All"
  · simp only [hall, ne_eq, not_true_eq_false, if_false] at h
    by_cases hq : trim searchQuery = ""
    · simp only [hq, ne_eq, not_true_eq_false, if_false, Except.ok.injEq] at h
      rw [← h]
    · simp only [hq, ne_eq, not_false_eq_true, if_true] at h
      exact arrayFilter_sublist _ _ _ h
  · simp only [hall, ne_eq, not_false_eq_true, if_true] at h
    cases hc : arrayFilter (categoryCallback toLowerCase selectedCategory) articles with
    | error e => simp [hc] at h
    | ok filtered =>
      have h₁ := arrayFilter_sublist _ _ _ hc
      simp only [hc] at h
      by_cases hq : trim searchQuery = ""
      · simp only [hq, ne_eq, not_true_eq_false, if_false, Except.ok.injEq] at h
        rw [← h]
        exact h₁
      · simp only [hq, ne_eq, not_false_eq_true, if_true] at h
        exact (arrayFilter_sublist _ _ _ h).trans h₁

/-- Claim C21 (sorting law).  Whatever the fetched collection, the query and the
category are, the filtered view is a sub-list of the sorted collection and is
ordered most recent first, an article without `createdAt` counting as created
at the epoch: when the article at position `i` has a later `createdAt` than the
article at position `j`, then `i` comes before `j`. -/
theorem articleView_newestFirst (toLowerCase : String → String)
    (snapshot : Option (List StoredDoc)) (previous view : List Article)
    (searchQuery selectedCategory : String) (hprev : NewestFirst previous)
    (hview : filterArticles toLowerCase (fetchArticles snapshot previous) searchQuery
      selectedCategory = .ok view) :
    view.Sublist (fetchArticles snapshot previous) ∧ NewestFirst view ∧
    ∀ (i j : Nat) (hi : i < view.length) (hj : j < view.length),
      createdMillis (view.get ⟨j, hj⟩) < createdMillis (view.get ⟨i, hi⟩) → i < j := by
  have hsub := filterArticles_sublist toLowerCase _ view searchQuery selectedCategory hview
  have hsorted : NewestFirst view :=
    List.Pairwise.sublist hsub (fetchArticles_newestFirst snapshot previous hprev)
  refine ⟨hsub, hsorted, ?_⟩
  intro i j hi hj hlt
  by_contra hij
  have hle : j ≤ i := Nat.le_of_not_lt hij
  rcases Nat.lt_or_eq_of_le hle with hji | hji
  · have h := List.pairwise_iff_get.mp hsorted ⟨j, hj⟩ ⟨i, hi⟩ hji
    omega
  · subst hji
    omega

/-- The three sample articles, fetched on a freshly mounted screen and shown
under the category `All` with an empty query. -/
theorem articleView_newestFirst_witness :
    filterArticles asciiLowerCase (fetchArticles (some articleDocs) []) "" "All"
      = .ok articlesNewestFirst ∧
    articlesNewestFirst.Sublist (fetchArticles (some articleDocs) []) ∧
    NewestFirst articlesNewestFirst ∧
    ∀ (i j : Nat) (hi : i < articlesNewestFirst.length) (hj : j < articlesNewestFirst.length),
      createdMillis (articlesNewestFirst.get ⟨j, hj⟩)
        < createdMillis (articlesNewestFirst.get ⟨i, hi⟩) → i < j :=
  ⟨rfl, articleView_newestFirst asciiLowerCase (some articleDocs) [] articlesNewestFirst "" "All"
    List.Pairwise.nil rfl⟩

/-! ## The history list: order, identifiers and date labels -/

/-- The history list is the result of the query, mapped document by document:
`loadHistory` does not reorder it. -/
theorem loadHistory_history (uid : String) (docs : List StoredDoc) (h : HistoryScreen) :
    (loadHistory (some uid) (some docs) h).history = (whereUserId uid docs).map toRecord :=
  rfl

/-- Claim C22, the order of the list.  When the store returns an older record of
the owner before a newer one, the history list shows them in that order: the
record created at 1000 stands before the record created at 2000. -/
theorem loadHistory_keeps_store_order :
    (loadHistory (some "u1") (some olderFirstDocs) HistoryScreen.initial).history.map
      (fun r => optProp r "createdAt") = [.timestamp 1000, .timestamp 2000] := by
  simp [loadHistory, olderFirstDocs, whereUserId, ownField, toRecord, spread, optProp,
    readField]

theorem ownField_eq_none_of_not_mem (fields : List (String × JsVal)) (key : String)
    (h : key ∉ fields.map Prod.fst) : ownField fields key = none := by
  induction fields with
  | nil => rfl
  | cons kv rest ih =>
    obtain ⟨k, v⟩ := kv
    simp only [List.map_cons, List.mem_cons, not_or] at h
    have hk : ¬ k = key := fun e => h.1 e.symm
    simp only [ownField, hk, if_false]
    exact ih h.2

/-- A property the document data does not define is read from the base object
of the spread. -/
theorem ownField_toRecord_of_none (d : StoredDoc) (key : String)
    (h : ownField d.data key = none) :
    optProp (toRecord d) key = if key = "id" then .str d.id else .undefined := by
  simp only [toRecord, optProp, readField, spread]
  by_cases hid : (ownField d.data "id").isNone = true
  · by_cases hk : key = "id"
    · subst hk
      simp [List.filter, hid, ownField]
    · have hk2 : ¬ "id" = key := fun e => hk e.symm
      simp [List.filter, hid, ownField, hk, hk2, h]
  · have hbase : ownField ([] ++ d.data) key = ownField d.data key := rfl
    simp only [List.filter, hid, hbase, h]
    by_cases hk : key = "id"
    · subst hk
      simp [h] at hid
    · simp [hk]

/-- Claim C23, refuted as stated.  A document whose data holds a field named
`id` yields a record whose `id` is that field, not the identifier of the
document. -/
theorem loadHistory_id_counterexample :
    (loadHistory (some "u1") (some [docWithIdField]) HistoryScreen.initial).history.map
      (fun r => optProp r "id") = [.str "legacy-7"] ∧
    docWithIdField.id = "h3" := by
  constructor
  · simp [loadHistory, docWithIdField, whereUserId, ownField, toRecord, spread, optProp,
      readField]
  · rfl

/-- Claim C23, amended.  For every document returned by the history query whose
data has no field named `id`, the `id` of the record that `loadHistory` builds
from it is the identifier of the document. -/
theorem loadHistory_record_id (uid : String) (docs : List StoredDoc) (h : HistoryScreen)
    (d : StoredDoc) (hd : d ∈ whereUserId uid docs) (hid : ownField d.data "id" = none) :
    toRecord d ∈ (loadHistory (some uid) (some docs) h).history ∧
    optProp (toRecord d) "id" = .str d.id := by
  constructor
  · rw [loadHistory_history]
    exact List.mem_map_of_mem toRecord hd
  · rw [ownField_toRecord_of_none d "id" hid]
    rfl

/-- The first record of the owner `u1` in the sample collection. -/
theorem loadHistory_record_id_witness :
    toRecord firstSampleDoc
      ∈ (loadHistory (some "u1") (some sampleCollection) HistoryScreen.initial).history ∧
    optProp (toRecord firstSampleDoc) "id" = .str "d1" :=
  loadHistory_record_id "u1" sampleCollection HistoryScreen.initial firstSampleDoc
    (by simp [sampleCollection, firstSampleDoc, whereUserId, ownField]) rfl

/-- Claim C27.  For every record built from a document whose data fields are
exactly those `saveToHistory` writes, the date label of the history card is
`"No date"`, whatever `createdAt` holds: the card reads the field `timestamp`,
which such a record does not have. -/
theorem dateLabel_no_date (format : JsVal → String) (d : StoredDoc)
    (hfields : d.data.map Prod.fst = historyFields) :
    dateLabel format (toRecord d) = .ok "No date" := by
  have hnone : ownField d.data "timestamp" = none := by
    apply ownField_eq_none_of_not_mem
    rw [hfields]
    decide
  have hread := ownField_toRecord_of_none d "timestamp" hnone
  have hne : ¬ ("timestamp" = "id") := by decide
  rw [if_neg hne] at hread
  have hprop : getProp (toRecord d) "timestamp" = .ok (optProp (toRecord d) "timestamp") :=
    getProp_of_not_nullish _ _ rfl
  simp [dateLabel, hprop, hread, formatDate, JsVal.truthy]

/-- A saved record with a server timestamp: the card still shows no date. -/
theorem dateLabel_no_date_witness :
    savedDoc.data.map Prod.fst = historyFields ∧
    dateLabel (fun _ => "Jan 1, 1970, 12:00 AM") (toRecord savedDoc) = .ok "No date" :=
  ⟨rfl, dateLabel_no_date _ savedDoc rfl⟩

/-! ## Filtering is a function of its inputs -/

/-- Claim C24.  The list `filterArticles` computes depends only on the query,
the category and the collection: two screens that agree on these three get the
same list, in the same order, whatever they showed before; and the run leaves
the collection, the query and the category as they were. -/
theorem filterArticles_pure (toLowerCase : String → String) (d₁ d₂ : Dashboard)
    (harticles : d₁.articles = d₂.articles) (hquery : d₁.searchQuery = d₂.searchQuery)
    (hcategory : d₁.selectedCategory = d₂.selectedCategory) :
    (applyFilterArticles toLowerCase d₁).map Dashboard.filteredArticles
      = (applyFilterArticles toLowerCase d₂).map Dashboard.filteredArticles ∧
    (∀ after, applyFilterArticles toLowerCase d₁ = .ok after →
      after.articles = d₁.articles ∧ after.searchQuery = d₁.searchQuery ∧
      after.selectedCategory = d₁.selectedCategory ∧
      after.filteredArticles.Sublist d₁.articles) := by
  constructor
  · unfold applyFilterArticles
    rw [harticles, hquery, hcategory]
  · intro after hafter
    unfold applyFilterArticles at hafter
    cases hf : filterArticles toLowerCase d₁.articles d₁.searchQuery d₁.selectedCategory with
    | error e => simp [hf] at hafter
    | ok filtered =>
      simp only [hf, Except.ok.injEq] at hafter
      rw [← hafter]
      exact ⟨rfl, rfl, rfl, filterArticles_sublist toLowerCase _ _ _ _ hf⟩

/-- Scenario 1 evaluated on a screen that shows nothing and on a screen that
shows the whole collection. -/
theorem filterArticles_pure_witness :
    (applyFilterArticles asciiLowerCase scenarioDashboard).map Dashboard.filteredArticles
      = (applyFilterArticles asciiLowerCase
          { scenarioDashboard with filteredArticles := scenarioArticles }).map
          Dashboard.filteredArticles ∧
    (∀ after, applyFilterArticles asciiLowerCase scenarioDashboard = .ok after →
      after.articles = scenarioDashboard.articles ∧
      after.searchQuery = scenarioDashboard.searchQuery ∧
      after.selectedCategory = scenarioDashboard.selectedCategory ∧
      after.filteredArticles.Sublist scenarioDashboard.articles) :=
  filterArticles_pure asciiLowerCase scenarioDashboard
    { scenarioDashboard with filteredArticles := scenarioArticles } rfl rfl rfl

/-- Claim C28.  A query of white space only gives the output of the empty query,
for every collection and category; a query with content is matched untrimmed:
on the articles of Scenario 1 the query ` leaf` (with a leading space) finds
nothing, while `leaf`, which is what `trim` makes of it, finds the article on
leaf spot. -/
theorem filterArticles_blank_query (toLowerCase : String → String) (articles : List Article)
    (searchQuery selectedCategory : String) (hblank : isBlank searchQuery = true) :
    filterArticles toLowerCase articles searchQuery selectedCategory
      = filterArticles toLowerCase articles "" selectedCategory ∧
    (trim " leaf" = "leaf" ∧
      filterArticles asciiLowerCase scenarioArticles " leaf" "All" = .ok [] ∧
      filterArticles asciiLowerCase scenarioArticles "leaf" "All"
        = .ok [[("title", .str "Leaf Spot"), ("category", .str "Diseases")]]) := by
  have h₁ : trim searchQuery = "" := (trim_eq_empty_iff searchQuery).mpr hblank
  have h₂ : trim "" = "" := rfl
  refine ⟨?_, rfl, rfl, rfl⟩
  unfold filterArticles
  simp only [h₁, h₂, ne_eq, not_true_eq_false, if_false]

/-- A query of a space, a tab and a line feed on the articles of Scenario 1. -/
theorem filterArticles_blank_query_witness :
    filterArticles asciiLowerCase scenarioArticles " \t\n" "All"
      = filterArticles asciiLowerCase scenarioArticles "" "All" ∧
    (trim " leaf" = "leaf" ∧
      filterArticles asciiLowerCase scenarioArticles " leaf" "All" = .ok [] ∧
      filterArticles asciiLowerCase scenarioArticles "leaf" "All"
        = .ok [[("title", .str "Leaf Spot"), ("category", .str "Diseases")]]) :=
  filterArticles_blank_query asciiLowerCase scenarioArticles " \t\n" "All" rfl

/-! ## Runs of the screen -/

/-- Claim C25.  The combination loading = true with photo = null is reachable:
a save is pressed, the user retries, captures again and presses Identify, and
the write then settles and clears the photo while the identification is still
pending. -/
theorem loading_without_photo_reachable :
    (run (Machine.initial (some "u1")) saveSettlesWhileIdentifying).map
      (fun m => (m.screen.loading, m.screen.photo, m.identifying.length))
      = some (true, none, 1) ∧
    ∃ m, Reachable m ∧ m.screen.loading = true ∧ m.screen.photo = none := by
  have hrun : (run (Machine.initial (some "u1")) saveSettlesWhileIdentifying).map
      (fun m => (m.screen.loading, m.screen.photo, m.identifying.length))
      = some (true, none, 1) := rfl
  refine ⟨hrun, ?_⟩
  cases hm : run (Machine.initial (some "u1")) saveSettlesWhileIdentifying with
  | none => simp [hm] at hrun
  | some m =>
    simp only [hm, Option.map_some', Option.some.injEq, Prod.mk.injEq] at hrun
    exact ⟨m, ⟨some "u1", saveSettlesWhileIdentifying, hm⟩, hrun.1, hrun.2.1⟩

/-- Claim C26.  In the run capture, identify under `en`, success, choose `si`,
save, the one request sent names `en` in its instruction, and the one record the
store holds carries the summary of that identification with the language
`si`. -/
theorem saved_language_is_current :
    (run (Machine.initial (some "u1")) saveAfterLanguageChange).map
      (fun m => ((fetches m.effects).map instructionOf,
        m.store.map (fun doc => (readField doc "summary", readField doc "language"))))
      = some ([some (.str "Identify the plant disease and give summary and treatment in en")],
          [(.str "Leaf rust", .str "si")]) := by
  rfl

/-! ## deleteAccount -/

/-- The handler never touches the `history` collection. -/
theorem deleteAccount_keeps_history (deleteDoc deleteUser : Option String) (b : Backend) :
    (deleteAccount deleteDoc deleteUser b).1.history = b.history := by
  unfold deleteAccount
  cases b.session with
  | none => rfl
  | some uid =>
    cases deleteDoc with
    | some code => rfl
    | none => cases deleteUser <;> rfl

/-- Claim C29, the history records.  A deletion that completes successfully
removes the profile document and the account of `u1`, announces the deletion,
and leaves both history records of `u1` in the store. -/
theorem deleteAccount_leaves_history :
    (deleteAccount none none sampleBackend).2
      = ["Your account has been permanently deleted. We hope to see you again!"] ∧
    (deleteAccount none none sampleBackend).1.accounts = ["u2"] ∧
    (deleteAccount none none sampleBackend).1.users.length = 0 ∧
    (whereUserId "u1" (deleteAccount none none sampleBackend).1.history).map StoredDoc.id
      = ["h1", "h2"] := by
  refine ⟨rfl, rfl, rfl, ?_⟩
  rw [deleteAccount_keeps_history]
  simp [sampleBackend, olderFirstDocs, whereUserId, ownField]

/-! ## validateUsername -/

/-- What `validateUsername` accepts: the names of at least 3 and at most 20 code
units made of letters, digits and underscores. -/
theorem validateUsername_accepts_iff (username : String) :
    (validateUsername username).1 = true ↔
      3 ≤ jsLength username ∧ jsLength username ≤ 20 ∧
        username.data.all isWordChar = true := by
  unfold validateUsername
  by_cases hempty : username = ""
  · subst hempty
    simp [jsLength]
  · have hdata : username.data ≠ [] := fun h => hempty (String.ext_iff.mpr h)
    have hne : username.data.isEmpty = false := by
      cases hd : username.data with
      | nil => exact absurd hd hdata
      | cons c rest => rfl
    simp only [hempty, if_false, matchesUsernamePattern, hne, Bool.not_false, Bool.true_and]
    by_cases h3 : jsLength username < 3
    · simp only [h3, if_true]
      constructor
      · intro h; cases h
      · intro h; omega
    · by_cases h20 : jsLength username > 20
      · simp only [h3, h20, if_true, if_false]
        constructor
        · intro h; cases h
        · intro h; omega
      · simp only [h3, h20, if_false]
        cases hall : username.data.all isWordChar with
        | true =>
          simp only [Bool.not_true, Bool.false_eq_true, if_false, true_and, and_true]
          exact ⟨fun _ => ⟨Nat.le_of_not_lt h3, Nat.le_of_not_lt h20⟩, fun _ => trivial⟩
        | false =>
          simp only [Bool.not_false, if_true, Bool.false_eq_true, and_false]

/-- Claim C30, the upper bound.  A username of twenty letters is accepted, with
no error message. -/
theorem validateUsername_accepts_twenty :
    jsLength twentyLetters = 20 ∧ validateUsername twentyLetters = (true, "") := by
  constructor <;> rfl

end LeafCare
